import Mathlib

/-!
# Smart room controller (ATmega32): a shallow embedding of `main.c`

The firmware is one C translation unit.  Its globals, the two function-local
`static` line indices and the peripherals it drives become the fields of
`State`; every C function becomes a Lean function on `State`.

Conventions of the embedding

* `int` is the 16-bit signed integer of the AVR target: arithmetic results are
  brought back into range with `wrap16`.  `uint8_t` values are reduced modulo 256.
* A C string is the list of its characters before the terminating NUL.
* Everything the program does to the outside world (serial texts, the echo,
  stepper port writes, delays, display calls, RTC calls, PWM compare writes) is
  appended, in program order, to `State.trace`.
* `char rec[MAX]` in `password_validation` and `get_user_cmd` is an automatic
  array: it has no initialiser and is not `static`, so its contents at entry are
  whatever the stack holds.  The embedding makes these entry contents an
  explicit argument (`stack`, addressed by the offset from `rec`) and returns the
  bytes the call leaves behind.  Offsets `MAX .. 255` are reachable by the 8-bit
  index but lie outside the array.
* The RTC, display and serial libraries under `lib/` are collaborators of the
  program and their sources are not part of the repository snapshot.  A call to
  one of them is recorded in the trace; what the clock chip answers is an
  explicit input (`Env`), and the display is modelled as a memory of cells
  written from the cursor on.
* Not modelled: the data direction and timer registers written by
  `stepper_init`, `lamp_init`, `timer1_init` and at the top of the timer handler
  (nothing in the program reads them).
* The token arrays `cmd_key`, `cmd_first_value`, `cmd_second_value` and the
  `sprintf` targets are held as strings of any length; where a statement is
  about a capacity, the length of the text is compared with it (`fits`), and
  the offset of a write into `rec` is compared with `MAX` (`write_offset`).
-/

namespace SmartRoom

/-! ## Constants and machine integers -/

/-- Capacity of the line buffers and token arrays: `#define MAX 200`. -/
def MAX : Nat := 200

/-- Clockwise stepping: `#define CW 1`. -/
def CW : Int := 1

/-- Counter-clockwise stepping: `#define CCW 0`. -/
def CCW : Int := 0

/-- The terminating character of a C string. -/
def NUL : Char := Char.ofNat 0

/-- Two's-complement reduction of an integer to the 16-bit `int` of the target. -/
def wrap16 (x : Int) : Int := (x + 32768) % 65536 - 32768

/-- Reduction of an integer to an 8-bit unsigned register or `uint8_t`. -/
def wrap8 (x : Int) : Nat := (x % 256).toNat

/-! ## Data model -/

/-- The clock record `DateTime_t` of the RTC library, field by field.  The
field types are declared in the library header; the fields hold the integer
values assigned to them. -/
structure DateTime_t where
  Second : Int
  Minute : Int
  Hour : Int
  Day : Int
  Date : Int
  Month : Int
  Year : Int
deriving DecidableEq, Repr

/-- Modelled from the spec: the weekday is "fixed to a constant"; `Sunday` is an
enumerator of the RTC library header, which is not part of the repository
snapshot, so its numeric value is chosen here. -/
def Sunday : Int := 1

/-- One observable action of the firmware on its surroundings. -/
inductive Event where
  | serial_send_string (text : String)
  | udr (c : Char)
  | stepper_port (pattern : Nat)
  | delay_ms (ms : Nat)
  | lq_setCursor (row col : Nat)
  | lq_print (text : List Char)
  | rtc_set (v : DateTime_t)
  | rtc_get
  | ocr0 (v : Nat)
deriving DecidableEq, Repr

/-- The globals of `main.c`, the two `static` line indices, and the peripheral
registers and display memory the program writes. -/
structure State where
  counter : Int
  cmd_key : List Char
  cmd_first_value : List Char
  cmd_second_value : List Char
  set_time : Bool
  set_lamp : Bool
  open_curtain : Bool
  close_curtain : Bool
  help : Bool
  is_open : Bool
  after_one_second : Bool
  after_one_minute : Bool
  login : Bool
  t : DateTime_t
  /-- `static uint8_t index` of `password_validation`. -/
  pw_index : Nat
  /-- `static uint8_t index` of `get_user_cmd`. -/
  cmd_index : Nat
  /-- PWM compare register of Timer0. -/
  OCR0 : Nat
  /-- `PORTA`, the stepper coil port. -/
  STEPPER_PORT : Nat
  /-- Display memory, by row and column. -/
  lcd : Nat → Nat → Char
  /-- Display cursor as set by `lq_setCursor` and advanced by `lq_print`. -/
  lcd_cursor : Nat × Nat
  trace : List Event

/-- What the collaborators and the uninitialised locals supply during one
main-loop iteration. -/
structure Env where
  /-- Entry values of `hour, minute, second` in `set_date_and_time`. -/
  junk_time : Int × Int × Int
  /-- Entry values of `month, day, year` in `set_date_and_time`. -/
  junk_date : Int × Int × Int
  /-- Result of `RTC_Get()` inside `function_set_time`. -/
  rtc_after_set : DateTime_t
  /-- Whether `RTC_Status() == RTC_OK` inside `function_set_time`. -/
  rtc_ok_after_set : Bool
  /-- Result of `RTC_Get()` inside `function_after_one_second`. -/
  rtc_now : DateTime_t
  /-- Whether `RTC_Status() == RTC_OK` inside `function_after_one_second`. -/
  rtc_ok_now : Bool

/-! ## Collaborators -/

/-- Append one event to the trace. -/
def emit (e : Event) (s : State) : State :=
  { s with trace := s.trace ++ [e] }

/-- Modelled from the spec: the serial console collaborator,
`serial_send_string(text)`; the text goes out on the console. -/
def serial_send_string (text : String) (s : State) : State :=
  emit (Event.serial_send_string text) s

/-- Modelled from the spec: the display collaborator `write(row, column, text)`,
first half, `lq_setCursor(&lcd1, row, col)` (the library source is not part of
the repository snapshot). -/
def lq_setCursor (row col : Nat) (s : State) : State :=
  emit (Event.lq_setCursor row col) { s with lcd_cursor := (row, col) }

/-- Display memory after writing `text` from column `col` of row `row` on. -/
def lcd_write (lcd : Nat → Nat → Char) (row col : Nat) : List Char → Nat → Nat → Char
  | [] => lcd
  | c :: cs =>
    lcd_write (fun r k => if r = row ∧ k = col then c else lcd r k) row (col + 1) cs

/-- Modelled from the spec: the display collaborator `write(row, column, text)`,
second half, `lq_print(&lcd1, text)`: the characters go to consecutive columns
starting at the cursor. -/
def lq_print (text : List Char) (s : State) : State :=
  emit (Event.lq_print text)
    { s with
      lcd := lcd_write s.lcd s.lcd_cursor.1 s.lcd_cursor.2 text
      lcd_cursor := (s.lcd_cursor.1, s.lcd_cursor.2 + text.length) }

/-- The three characters shown at row `row`, columns `col .. col+2`. -/
def lcd_read3 (s : State) (row col : Nat) : List Char :=
  [s.lcd row col, s.lcd row (col + 1), s.lcd row (col + 2)]

/-- Modelled from the spec: the RTC collaborator `set(fields)`, called as
`RTC_Set(t)`. -/
def RTC_Set (s : State) : State :=
  emit (Event.rtc_set s.t) s

/-- Modelled from the spec: the RTC collaborator `get() -> fields | fault`,
called as `t = RTC_Get()`, with the value the clock chip answers; whether the
answer is a fault is asked separately (`RTC_Status()`). -/
def RTC_Get (answer : DateTime_t) (s : State) : State :=
  emit Event.rtc_get { s with t := answer }

/-! ## C library routines used by the program -/

/-- Library predicate `isspace` in the C locale. -/
def isspace (c : Char) : Bool :=
  c = ' ' || c = '\t' || c = '\n' || c = Char.ofNat 11 || c = Char.ofNat 12 || c = '\r'

/-- Library predicate `isdigit`. -/
def isdigit (c : Char) : Bool :=
  decide ('0'.toNat ≤ c.toNat ∧ c.toNat ≤ '9'.toNat)

/-- Value of a decimal digit string, most significant digit first. -/
def digits_value (ds : List Char) : Nat :=
  ds.foldl (fun acc d => acc * 10 + (d.toNat - '0'.toNat)) 0

/-- Decimal digits of a natural number. -/
def dec (n : Nat) : List Char := Nat.toDigits 10 n

/-- Text of `%d` for a value. -/
def fmt_d (v : Int) : List Char :=
  if v < 0 then '-' :: dec v.natAbs else dec v.natAbs

/-- Text of `%02d`: at least two characters, padded with zeros after the sign. -/
def fmt_02d (v : Int) : List Char :=
  let body := dec v.natAbs
  if v < 0 then
    '-' :: (List.replicate (1 - body.length) '0' ++ body)
  else
    List.replicate (2 - body.length) '0' ++ body

/-- Text of `%3d`: at least three characters, padded with blanks on the left. -/
def fmt_3d (v : Int) : List Char :=
  let body := fmt_d v
  List.replicate (3 - body.length) ' ' ++ body

/-- One `%s` conversion of `sscanf`: skip white space, then take the maximal run
of other characters; fails at the end of the input. -/
def scan_s (inp : List Char) : Option (List Char × List Char) :=
  let r := inp.dropWhile isspace
  if r = [] then none
  else some (r.takeWhile (fun c => !isspace c), r.dropWhile (fun c => !isspace c))

/-- The optional sign in front of a number: whether it is a minus, and the
input after it. -/
def scan_sign : List Char → Bool × List Char
  | '-' :: rest => (true, rest)
  | '+' :: rest => (false, rest)
  | r => (false, r)

/-- One `%d` conversion of `sscanf`: skip white space, optional sign, at least
one digit.  The value is reduced to the 16-bit `int`. -/
def scan_d (inp : List Char) : Option (Int × List Char) :=
  let r := inp.dropWhile isspace
  let neg := (scan_sign r).1
  let r1 := (scan_sign r).2
  let ds := r1.takeWhile isdigit
  if ds = [] then none
  else
    let v : Int := digits_value ds
    some (wrap16 (if neg then -v else v), r1.dropWhile isdigit)

/-- A literal character of a `sscanf` format: it must be the next input character. -/
def scan_lit (c : Char) (inp : List Char) : Option (List Char) :=
  match inp with
  | x :: rest => if x = c then some rest else none
  | [] => none

/-- Library function `atoi`: white space, optional sign, digits; 0 without digits. -/
def atoi (inp : List Char) : Int :=
  match scan_d inp with
  | some (v, _) => v
  | none => 0

/-- The C string stored in `mem` from offset `start`, reading at most `fuel`
characters: the characters before the first NUL. -/
def c_str_from (mem : Nat → Char) (start : Nat) : Nat → List Char
  | 0 => []
  | fuel + 1 =>
    if mem start = NUL then [] else mem start :: c_str_from mem (start + 1) fuel

/-- Memory after storing `v` at offset `i`. -/
def poke (mem : Nat → Char) (i : Nat) (v : Char) : Nat → Char :=
  fun j => if j = i then v else mem j

/-! ## Tokenizer and parsers of the program -/

/-- The call `sscanf(rec, "%s %s %s %s", w1, w2, w3, w4)` on words that were
set to the empty string before: a word that is not converted stays empty. -/
def sscanf_4s (inp : List Char) : List Char × List Char × List Char × List Char :=
  match scan_s inp with
  | none => ([], [], [], [])
  | some (w1, r1) =>
    match scan_s r1 with
    | none => (w1, [], [], [])
    | some (w2, r2) =>
      match scan_s r2 with
      | none => (w1, w2, [], [])
      | some (w3, r3) =>
        match scan_s r3 with
        | none => (w1, w2, w3, [])
        | some (w4, _) => (w1, w2, w3, w4)

/-- Source function `split_string_by_space(rec)`, on the C string held in `rec`. -/
def split_string_by_space (line : List Char) (s : State) : State :=
  let (first_word, second_word, third_word, fourth_word) := sscanf_4s line
  { s with
    cmd_key := first_word ++ [' '] ++ second_word
    cmd_first_value := third_word
    cmd_second_value := fourth_word }

/-- The call `sscanf(text, "%d<sep>%d<sep>%d", &a, &b, &c)`: a variable that is
not converted keeps its entry value. -/
def sscanf_3d (sep : Char) (inp : List Char) (entry : Int × Int × Int) : Int × Int × Int :=
  match scan_d inp with
  | none => entry
  | some (a, r1) =>
    match scan_lit sep r1 with
    | none => (a, entry.2.1, entry.2.2)
    | some r2 =>
      match scan_d r2 with
      | none => (a, entry.2.1, entry.2.2)
      | some (b, r3) =>
        match scan_lit sep r3 with
        | none => (a, b, entry.2.2)
        | some r4 =>
          match scan_d r4 with
          | none => (a, b, entry.2.2)
          | some (c, _) => (a, b, c)

/-- Source function `set_date_and_time(time, date)`.  The six locals are not
initialised in the source; `junk_time` and `junk_date` are their entry values. -/
def set_date_and_time (time date : List Char) (junk_time junk_date : Int × Int × Int)
    (s : State) : State :=
  let (hour, minute, second) := sscanf_3d ':' time junk_time
  let (month, day, year) := sscanf_3d '/' date junk_date
  { s with
    t :=
      { Second := second
        Minute := minute
        Hour := hour
        Day := Sunday
        Date := day
        Month := month
        Year := wrap16 (year + 2000) } }

/-! ## Lamp -/

/-- The value `255 * duty_cycle / 100` computed in 16-bit `int`. -/
def duty_compare (duty_cycle : Int) : Int :=
  (wrap16 (255 * duty_cycle)).tdiv 100

/-- Source function `set_duty_cycle(duty_cycle)`: `OCR0 = 255 * duty_cycle / 100`. -/
def set_duty_cycle (duty_cycle : Int) (s : State) : State :=
  let v := wrap8 (duty_compare duty_cycle)
  emit (Event.ocr0 v) { s with OCR0 := v }

/-! ## Stepper -/

/-- The assignment `STEPPER_PORT = pattern` followed by `_delay_ms(50)`. -/
def stepper_phase (pattern : Nat) (s : State) : State :=
  emit (Event.delay_ms 50)
    (emit (Event.stepper_port pattern) { s with STEPPER_PORT := pattern })

/-- The phases written by one pass of the inner loop over `step_sequence`:
ascending indices for `CW`, descending for `CCW`, none for any other direction. -/
def cycle_phases (step_sequence : List Nat) (direction : Int) : List Nat :=
  if direction = CW then step_sequence
  else if direction = CCW then step_sequence.reverse
  else []

/-- The outer loop `for (int i = 0; i < steps; i++)` with `n` iterations left. -/
def rotate_loop (step_sequence : List Nat) (direction : Int) : Nat → State → State
  | 0, s => s
  | n + 1, s =>
    rotate_loop step_sequence direction n
      ((cycle_phases step_sequence direction).foldl (fun st p => stepper_phase p st) s)

/-- Source function `rotate_stepper(steps, direction)`. -/
def rotate_stepper (steps direction : Int) (s : State) : State :=
  rotate_loop [0x04, 0x02, 0x08, 0x01] direction steps.toNat s

/-- Source function `rotate_stepper_three_quarter(steps, direction)`. -/
def rotate_stepper_three_quarter (steps direction : Int) (s : State) : State :=
  rotate_loop [0x04, 0x02, 0x08] direction steps.toNat s

/-- The stepper port writes of a trace, in order. -/
def stepper_writes : List Event → List Nat
  | [] => []
  | Event.stepper_port p :: es => p :: stepper_writes es
  | _ :: es => stepper_writes es

/-! ## Executors -/

/-- The block that renders `t` on the two display rows (it occurs verbatim in
`lcd_init`, `function_set_time` and `function_after_one_second`).  The source
formats each text into a `char[10]` array first; here the text goes to the
display whatever its length, so the definition follows the source for texts
that the array holds (the length of the texts is the subject of `fits`). -/
def show_clock (s : State) : State :=
  let s1 := lq_setCursor 0 0 s
  let s2 := lq_print (fmt_02d s1.t.Hour ++ [':'] ++ fmt_02d s1.t.Minute ++ [':']
    ++ fmt_02d s1.t.Second) s1
  let s3 := lq_setCursor 1 0 s2
  lq_print (fmt_02d s3.t.Year ++ ['/'] ++ fmt_02d s3.t.Month ++ ['/']
    ++ fmt_02d s3.t.Date) s3

/-- Source function `function_set_time()`. -/
def function_set_time (e : Env) (s : State) : State :=
  let s1 := set_date_and_time s.cmd_first_value s.cmd_second_value e.junk_time e.junk_date s
  let s2 := RTC_Set s1
  let s3 := RTC_Get e.rtc_after_set s2
  let s4 := if e.rtc_ok_after_set then show_clock s3 else s3
  serial_send_string "\rDone.\r" s4

/-- Source function `function_set_lamp()`. -/
def function_set_lamp (s : State) : State :=
  let duty_cycle := atoi s.cmd_first_value
  let s1 := set_duty_cycle duty_cycle s
  let s2 := lq_setCursor 1 12 s1
  let s3 := lq_print (fmt_3d duty_cycle ++ ['%']) s2
  serial_send_string "\rDone.\r" s3

/-- Source function `function_open_curtain()`. -/
def function_open_curtain (s : State) : State :=
  if !s.is_open then
    let s1 := serial_send_string "\rOpening...\r" s
    let s2 := rotate_stepper 9 CW s1
    let s3 := rotate_stepper_three_quarter 1 CW s2
    let s4 := lq_setCursor 0 13 s3
    let s5 := lq_print "ON ".toList s4
    let s6 := serial_send_string "\rDone.\r" s5
    { s6 with is_open := true }
  else
    serial_send_string "\rThe curtain is already open!\r" s

/-- Source function `function_close_curtain()`. -/
def function_close_curtain (s : State) : State :=
  if s.is_open then
    let s1 := serial_send_string "\rClosing...\r" s
    let s2 := rotate_stepper_three_quarter 1 CCW s1
    let s3 := rotate_stepper 9 CCW s2
    let s4 := lq_setCursor 0 13 s3
    let s5 := lq_print "OFF".toList s4
    let s6 := serial_send_string "\rDone.\r" s5
    { s6 with is_open := false }
  else
    serial_send_string "\rThe curtain is already close!\r" s

/-- Source function `function_help()`. -/
def function_help (s : State) : State :=
  let s1 := serial_send_string "\r******  << Help >>  ******\r" s
  let s2 := serial_send_string "\r   set time (XX:YY:ZZ M/D/Y)\r" s1
  let s3 := serial_send_string "-> Sets the desired time\r" s2
  let s4 := serial_send_string "\r   set lamp (0 to 100)\r" s3
  let s5 := serial_send_string "-> Sets the room brightness\r" s4
  let s6 := serial_send_string "\r   open curtain\r" s5
  let s7 := serial_send_string "-> Opens the curtain\r" s6
  let s8 := serial_send_string "\r   close curtain\r" s7
  serial_send_string "-> Closes the curtain\r" s8

/-- Source function `function_after_one_second()`. -/
def function_after_one_second (e : Env) (s : State) : State :=
  let s1 := RTC_Get e.rtc_now s
  if e.rtc_ok_now then show_clock s1 else s1

/-- Source function `function_session_timeout()`. -/
def function_session_timeout (s : State) : State :=
  let s1 := { s with login := false }
  let s2 := serial_send_string "\rSession timeout!" s1
  let s3 := serial_send_string "\rEnter your password to continue.\r" s2
  { s3 with counter := 0 }

/-! ## Line handlers -/

/-- Source function `password_validation(c)`.  `stack` holds the entry contents
of the automatic array `rec`; the result carries the bytes left in it.  In the
completing branch the NUL was just stored at `index`, so the string that
`strcmp` reads ends at that offset at the latest.  The definition follows the
source for an index below `MAX`; at `MAX .. 255` the source stores past the
array, which is recorded here as a store at that offset and nothing more. -/
def password_validation (c : Char) (stack : Nat → Char) (s : State) :
    State × (Nat → Char) :=
  let index := s.pw_index
  let rec1 := if c = '\r' then poke stack index NUL else poke stack index c
  if rec1 index = NUL then
    let s1 :=
      if c_str_from rec1 0 index = "1234".toList then
        serial_send_string "\rWelcome back, I'm ready!\r"
          { s with login := true, after_one_minute := false, counter := 0 }
      else
        serial_send_string "\rIncorrect password!\r" s
    ({ s1 with pw_index := 0 }, poke rec1 0 NUL)
  else
    ({ s with pw_index := (index + 1) % 256 }, rec1)

/-- The `if / else if` chain of `get_user_cmd` on the completed line. -/
def dispatch (line : List Char) (s : State) : State :=
  if s.cmd_key = "set time".toList then { s with set_time := true }
  else if s.cmd_key = "set lamp".toList then { s with set_lamp := true }
  else if s.cmd_key = "open curtain".toList then { s with open_curtain := true }
  else if s.cmd_key = "close curtain".toList then { s with close_curtain := true }
  else if line = "help".toList then { s with help := true }
  else serial_send_string "\rError!\r" s

/-- Source function `get_user_cmd(c)`.  `stack` holds the entry contents of the
automatic array `rec`; the result carries the bytes left in it.  In the
completing branch the NUL was just stored at `index`, so the string that
`sscanf` and `strcmp` read ends at that offset at the latest.  The definition
follows the source for an index below `MAX`; at `MAX .. 255` the source stores
past the array, which is recorded here as a store at that offset and nothing
more. -/
def get_user_cmd (c : Char) (stack : Nat → Char) (s : State) :
    State × (Nat → Char) :=
  let index := s.cmd_index
  let rec1 := if c = '\r' then poke stack index NUL else poke stack index c
  if rec1 index = NUL then
    let line := c_str_from rec1 0 index
    let s1 := split_string_by_space line s
    let s2 := dispatch line s1
    ({ s2 with cmd_index := 0 }, poke rec1 0 NUL)
  else
    ({ s with cmd_index := (index + 1) % 256 }, rec1)

/-! ## Interrupt handlers and main loop -/

/-- Handler `ISR(TIMER1_OVF_vect)`; the two timer register writes do not
touch the program state. -/
def TIMER1_OVF (s : State) : State :=
  let s1 := { s with counter := wrap16 (s.counter + 1) }
  let s2 := { s1 with after_one_second := true }
  if s2.counter = 60 then { s2 with after_one_minute := true } else s2

/-- Handler `ISR(USART_RXC_vect)` for the received character `c`. -/
def USART_RXC (c : Char) (stack : Nat → Char) (s : State) : State × (Nat → Char) :=
  let s1 := emit (Event.udr c) s
  let s2 := { s1 with counter := 0 }
  if s2.login then get_user_cmd c stack s2 else password_validation c stack s2

/-- Loop line `if (set_time) { function_set_time(); set_time = false; }`. -/
def serve_set_time (e : Env) (s : State) : State :=
  if s.set_time then { function_set_time e s with set_time := false } else s

/-- Loop line `if (set_lamp) { function_set_lamp(); set_lamp = false; }`. -/
def serve_set_lamp (s : State) : State :=
  if s.set_lamp then { function_set_lamp s with set_lamp := false } else s

/-- Loop line `if (open_curtain) { function_open_curtain(); open_curtain = false; }`. -/
def serve_open_curtain (s : State) : State :=
  if s.open_curtain then { function_open_curtain s with open_curtain := false } else s

/-- Loop line `if (close_curtain) { function_close_curtain(); close_curtain = false; }`. -/
def serve_close_curtain (s : State) : State :=
  if s.close_curtain then { function_close_curtain s with close_curtain := false } else s

/-- Loop line `if (help) { function_help(); help = false; }`. -/
def serve_help (s : State) : State :=
  if s.help then { function_help s with help := false } else s

/-- Loop line `if (after_one_second) { function_after_one_second(); after_one_second = false; }`. -/
def serve_after_one_second (e : Env) (s : State) : State :=
  if s.after_one_second then
    { function_after_one_second e s with after_one_second := false }
  else s

/-- Loop line
`if (after_one_minute && login) { function_session_timeout(); after_one_minute = false; }`. -/
def serve_session_timeout (s : State) : State :=
  if s.after_one_minute && s.login then
    { function_session_timeout s with after_one_minute := false }
  else s

/-- One pass through the body of `while (1)` in `main`: the seven lines in order. -/
def main_loop (e : Env) (s : State) : State :=
  serve_session_timeout
    (serve_after_one_second e
      (serve_help
        (serve_close_curtain
          (serve_open_curtain
            (serve_set_lamp
              (serve_set_time e s))))))

/-- One timer tick followed by one pass of the main loop. -/
def tick_then_loop (e : Env) (s : State) : State :=
  main_loop e (TIMER1_OVF s)

/-- A run of ticks, each followed by one pass of the main loop, one `Env` per pass. -/
def run_ticks : List Env → State → State
  | [], s => s
  | e :: es, s => run_ticks es (tick_then_loop e s)

/-- A sequence of received characters, each handler call entering with the
bytes the previous call left in the stack region of `rec` (nothing else used
that part of the stack in between). -/
def feed_retained : List Char → (Nat → Char) → State → State × (Nat → Char)
  | [], stack, s => (s, stack)
  | c :: cs, stack, s =>
    feed_retained cs (USART_RXC c stack s).2 (USART_RXC c stack s).1

/-- A sequence of received characters, each paired with the contents of the
stack region of `rec` at the entry of its handler call. -/
def feed_frames : List (Char × (Nat → Char)) → State → State
  | [], s => s
  | (c, stack) :: cs, s => feed_frames cs (USART_RXC c stack s).1

/-- How often a serial text occurs in a trace. -/
def count_serial (text : String) (tr : List Event) : Nat :=
  tr.count (Event.serial_send_string text)

/-! ## Power-on -/

/-- The values of the globals given by their initialisers, with blank display
memory and the registers at their reset value. -/
def reset_state : State where
  counter := 0
  cmd_key := []
  cmd_first_value := []
  cmd_second_value := []
  set_time := false
  set_lamp := false
  open_curtain := false
  close_curtain := false
  help := false
  is_open := false
  after_one_second := false
  after_one_minute := false
  login := false
  t := ⟨0, 0, 0, 0, 0, 0, 0⟩
  pw_index := 0
  cmd_index := 0
  OCR0 := 0
  STEPPER_PORT := 0
  lcd := fun _ _ => ' '
  lcd_cursor := (0, 0)
  trace := []

/-- Source function `pwm_init()`: `OCR0 = 127`. -/
def pwm_init (s : State) : State :=
  emit (Event.ocr0 127) { s with OCR0 := 127 }

/-- Source function `lcd_init()`, with the answer of the clock chip. -/
def lcd_init (answer : DateTime_t) (ok : Bool) (s : State) : State :=
  let s1 := { s with t := ⟨55, 30, 9, Sunday, 12, 5, 2025⟩ }
  let s2 := RTC_Set s1
  let s3 := lq_setCursor 0 13 s2
  let s4 := lq_print "OFF".toList s3
  let s5 := lq_setCursor 1 13 s4
  let s6 := lq_print "50%".toList s5
  let s7 := RTC_Get answer s6
  if ok then show_clock s7 else s7

/-- Source function `serial_init_final()`. -/
def serial_init_final (s : State) : State :=
  serial_send_string "\rEnter your password to continue.\r"
    (serial_send_string "Hello there!" s)

/-- The state when `main` reaches `while (1)`. -/
def power_on (answer : DateTime_t) (ok : Bool) : State :=
  serial_init_final (lcd_init answer ok (pwm_init reset_state))

/-! ## Views and concrete states used in the statements -/

/-- The part of the state the session logic reads, with the number of timeout
announcements made so far. -/
def session_view (s : State) : Bool × Int × Bool × Nat :=
  (s.login, s.counter, s.after_one_minute, count_serial "\rSession timeout!" s.trace)

/-- An environment in which the clock chip answers 09:30:55 on 12 May 2025 with
status OK and the uninitialised locals hold zero. -/
def quiet_env : Env where
  junk_time := (0, 0, 0)
  junk_date := (0, 0, 0)
  rtc_after_set := ⟨55, 30, 9, Sunday, 12, 5, 2025⟩
  rtc_ok_after_set := true
  rtc_now := ⟨55, 30, 9, Sunday, 12, 5, 2025⟩
  rtc_ok_now := true

/-- The power-on state with that clock answer. -/
def boot : State := power_on ⟨55, 30, 9, Sunday, 12, 5, 2025⟩ true

/-- A stack region filled with the letter x. -/
def stack_x : Nat → Char := fun _ => 'x'

/-- The state reached from `boot` by receiving `1234` and a carriage return, the
stack region being retained between the five handler calls. -/
def logged_in : State := (feed_retained "1234\r".toList stack_x boot).1

/-- The stack region `rec` holds the characters of `line` from offset 0 on. -/
def holds (stack : Nat → Char) (line : List Char) : Prop :=
  ∀ j (h : j < line.length), stack j = line.get ⟨j, h⟩

/-- The terminators of a line: carriage return, and NUL (which the handlers
store unchanged and then test for). -/
def is_terminator (c : Char) : Bool := c = '\r' || c = NUL

/-- The words of a line, read left to right: `cur` is the word being read.
A white-space character ends the word in progress; other characters extend it. -/
def words_acc (cur : List Char) : List Char → List (List Char)
  | [] => if cur = [] then [] else [cur]
  | c :: cs =>
    if isspace c then
      (if cur = [] then words_acc [] cs else cur :: words_acc [] cs)
    else words_acc (cur ++ [c]) cs

/-- The white-space separated words of a line. -/
def words (line : List Char) : List (List Char) := words_acc [] line

/-- The `n`-th word of a line, counted from 0; empty when the line has fewer words. -/
def nth_word (line : List Char) (n : Nat) : List Char := (words line).getD n []

/-- The key of a completed line: its first two words joined by one space. -/
def key_of (line : List Char) : List Char :=
  nth_word line 0 ++ [' '] ++ nth_word line 1

/-- The five pending-action flags, in the order `set_time`, `set_lamp`,
`open_curtain`, `close_curtain`, `help`. -/
def pending (s : State) : Bool × Bool × Bool × Bool × Bool :=
  (s.set_time, s.set_lamp, s.open_curtain, s.close_curtain, s.help)

/-- The events of writing the phases `ps` to the stepper port, each write
followed by its settle delay. -/
def phase_events : List Nat → List Event
  | [] => []
  | p :: ps => Event.stepper_port p :: Event.delay_ms 50 :: phase_events ps

/-- The list `ps` repeated `n` times. -/
def repeat_phases (ps : List Nat) : Nat → List Nat
  | 0 => []
  | n + 1 => ps ++ repeat_phases ps n

/-- The state after the phases `ps` were written: the port holds the last of
them and the trace has grown by their events. -/
def apply_phases (ps : List Nat) (s : State) : State :=
  { s with
    STEPPER_PORT := ps.getLast?.getD s.STEPPER_PORT
    trace := s.trace ++ phase_events ps }

/-- The events a step appended to the trace. -/
def new_events (before after : State) : List Event :=
  after.trace.drop before.trace.length

/-- A curtain request. -/
inductive Request where
  | open_curtain
  | close_curtain
deriving DecidableEq, Repr

/-- The executor of a curtain request. -/
def serve_request : Request → State → State
  | Request.open_curtain, s => function_open_curtain s
  | Request.close_curtain, s => function_close_curtain s

/-- The executors of a sequence of curtain requests, in order. -/
def run_requests : List Request → State → State
  | [], s => s
  | r :: rs, s => run_requests rs (serve_request r s)

/-- The number of requests of kind `which` in the sequence whose executor
changed `is_open`. -/
def count_changing (which : Request) : List Request → State → Nat
  | [], _ => 0
  | r :: rs, s =>
    (if r = which ∧ (serve_request r s).is_open ≠ s.is_open then 1 else 0)
      + count_changing which rs (serve_request r s)

/-- The display indicator at row 0, columns 13 to 15, agrees with `is_open`. -/
def indicator_ok (s : State) : Prop :=
  lcd_read3 s 0 13 = if s.is_open then "ON ".toList else "OFF".toList

/-- The 39 phases of the opening profile: nine full cycles and three phases. -/
def open_profile : List Nat :=
  repeat_phases [0x04, 0x02, 0x08, 0x01] 9 ++ [0x04, 0x02, 0x08]

/-- The `n` characters shown at row `row` from column `col` on. -/
def lcd_read (s : State) (row col n : Nat) : List Char :=
  (List.range n).map (fun k => s.lcd row (col + k))

/-- The value of the last `RTC_Set` call recorded in a trace. -/
def last_rtc_set (tr : List Event) : Option DateTime_t :=
  tr.foldl (fun acc e => match e with
    | Event.rtc_set v => some v
    | _ => acc) none

/-- The time token `HH:MM:SS` of a set-time command. -/
def time_token (hour minute second : Nat) : List Char :=
  fmt_02d hour ++ [':'] ++ fmt_02d minute ++ [':'] ++ fmt_02d second

/-- The date token `MM/DD/YY` of a set-time command. -/
def date_token (month day year : Nat) : List Char :=
  fmt_02d month ++ ['/'] ++ fmt_02d day ++ ['/'] ++ fmt_02d year

/-- The text `sprintf(time_arr, "%02d:%02d:%02d", t.Hour, t.Minute, t.Second)`. -/
def time_text (t : DateTime_t) : List Char :=
  fmt_02d t.Hour ++ [':'] ++ fmt_02d t.Minute ++ [':'] ++ fmt_02d t.Second

/-- The text `sprintf(date_arr, "%02d/%02d/%02d", t.Year, t.Month, t.Date)`. -/
def date_text (t : DateTime_t) : List Char :=
  fmt_02d t.Year ++ ['/'] ++ fmt_02d t.Month ++ ['/'] ++ fmt_02d t.Date

/-- A C string of `text.length` characters fits, with its terminating NUL, in
an array of `capacity` bytes. -/
def fits (text : List Char) (capacity : Nat) : Prop := text.length + 1 ≤ capacity

/-- The offset from `rec` at which the character-received handler stores the
next character: the line index of the handler in charge. -/
def write_offset (s : State) : Nat :=
  if s.login then s.cmd_index else s.pw_index

/-- The three command tokens. -/
def tokens (s : State) : List Char × List Char × List Char :=
  (s.cmd_key, s.cmd_first_value, s.cmd_second_value)

/-- A run of white-space characters. -/
def is_blank_run (ws : List Char) : Prop := ∀ c ∈ ws, isspace c = true

/-- One event of an interleaved run: a timer tick, a received character with
the entry contents of the stack region of `rec`, or one pass of the main loop. -/
inductive Step where
  | tick
  | rx (c : Char) (stack : Nat → Char)
  | loop (e : Env)

/-- The effect of one event of an interleaved run. -/
def step : Step → State → State
  | Step.tick, s => TIMER1_OVF s
  | Step.rx c stack, s => (USART_RXC c stack s).1
  | Step.loop e, s => main_loop e s

/-- An interleaved run, event by event. -/
def run_steps : List Step → State → State
  | [], s => s
  | x :: xs, s => run_steps xs (step x s)

/-- The state in which the main loop reaches its seventh line, the timeout
guard `if (after_one_minute && login)`. -/
def at_timeout_guard (e : Env) (s : State) : State :=
  serve_after_one_second e
    (serve_help
      (serve_close_curtain
        (serve_open_curtain
          (serve_set_lamp
            (serve_set_time e s)))))

/-- A run of `n` ticks, each followed by one pass of the main loop. -/
def idle_seconds : Nat → List Step
  | 0 => []
  | n + 1 => Step.tick :: Step.loop quiet_env :: idle_seconds n

/-- Sixty ticks after a login, each but the last followed by a pass of the main
loop; then a character arrives before the main loop runs again. -/
def late_character_run : List Step :=
  idle_seconds 59 ++ [Step.tick, Step.rx 'h' stack_x]

/-- The state before the main loop polls in `late_character_run`. -/
def late_character_state : State := run_steps late_character_run logged_in

/-- A login, the letters `abc` without terminator, sixty idle ticks (the session
times out), and a second login; the stack region is retained throughout. -/
def relogin_state : State :=
  (feed_retained ("1234".toList ++ ['\r'])
    (feed_retained "abc".toList
      (feed_retained "1234\r".toList stack_x boot).2
      (feed_retained "1234\r".toList stack_x boot).1).2
    (run_ticks (List.replicate 60 quiet_env)
      (feed_retained "abc".toList
        (feed_retained "1234\r".toList stack_x boot).2
        (feed_retained "1234\r".toList stack_x boot).1).1)).1

/-- The part of the state that the six command and refresh executors neither
read nor write: the pending flags, the two tick flags, the session and the two
line indices. -/
structure Control where
  set_time : Bool
  set_lamp : Bool
  open_curtain : Bool
  close_curtain : Bool
  help : Bool
  after_one_second : Bool
  after_one_minute : Bool
  login : Bool
  counter : Int
  pw_index : Nat
  cmd_index : Nat
deriving DecidableEq, Repr

/-- The control part of a state. -/
def control (s : State) : Control :=
  ⟨s.set_time, s.set_lamp, s.open_curtain, s.close_curtain, s.help, s.after_one_second,
    s.after_one_minute, s.login, s.counter, s.pw_index, s.cmd_index⟩

/-- A state with its control part replaced. -/
def set_control (c : Control) (s : State) : State :=
  { s with
    set_time := c.set_time
    set_lamp := c.set_lamp
    open_curtain := c.open_curtain
    close_curtain := c.close_curtain
    help := c.help
    after_one_second := c.after_one_second
    after_one_minute := c.after_one_minute
    login := c.login
    counter := c.counter
    pw_index := c.pw_index
    cmd_index := c.cmd_index }

/-- An executor that runs only when its flag was set. -/
def run_if (flag : Bool) (f : State → State) (s : State) : State :=
  if flag then f s else s

/-- The executors whose flags are set in `s`, each run once, in the order
set-time, set-lamp, open-curtain, close-curtain, help, display-refresh. -/
def run_pending (e : Env) (s : State) : State :=
  run_if s.after_one_second (function_after_one_second e)
    (run_if s.help function_help
      (run_if s.close_curtain function_close_curtain
        (run_if s.open_curtain function_open_curtain
          (run_if s.set_lamp function_set_lamp
            (run_if s.set_time (function_set_time e) s)))))

/-- The five command flags and `after_one_second` set to false. -/
def clear_flags (s : State) : State :=
  { s with
    set_time := false
    set_lamp := false
    open_curtain := false
    close_curtain := false
    help := false
    after_one_second := false }

/-! # Theorems -/

/-! ## The executors leave the session alone -/

theorem session_view_emit (e : Event) (s : State)
    (h : e ≠ Event.serial_send_string "\rSession timeout!") :
    session_view (emit e s) = session_view s := by
  simp [session_view, emit, count_serial, List.count_append, List.count_cons, h]

theorem session_view_serial (text : String) (s : State)
    (h : text ≠ "\rSession timeout!") :
    session_view (serial_send_string text s) = session_view s := by
  unfold serial_send_string
  apply session_view_emit
  intro hc
  exact h (Event.serial_send_string.inj hc)

theorem session_view_lq_setCursor (r c : Nat) (s : State) :
    session_view (lq_setCursor r c s) = session_view s := by
  unfold lq_setCursor
  rw [session_view_emit _ _ (by simp)]
  rfl

theorem session_view_lq_print (text : List Char) (s : State) :
    session_view (lq_print text s) = session_view s := by
  unfold lq_print
  rw [session_view_emit _ _ (by simp)]
  rfl

theorem session_view_stepper_phase (p : Nat) (s : State) :
    session_view (stepper_phase p s) = session_view s := by
  unfold stepper_phase
  rw [session_view_emit _ _ (by simp), session_view_emit _ _ (by simp)]
  rfl

theorem session_view_phases (ps : List Nat) (s : State) :
    session_view (ps.foldl (fun st p => stepper_phase p st) s) = session_view s := by
  induction ps generalizing s with
  | nil => rfl
  | cons p ps ih => simp only [List.foldl_cons, ih, session_view_stepper_phase]

theorem session_view_rotate_loop (seq : List Nat) (d : Int) (n : Nat) (s : State) :
    session_view (rotate_loop seq d n s) = session_view s := by
  induction n generalizing s with
  | zero => rfl
  | succ n ih => simp only [rotate_loop, ih, session_view_phases]

theorem session_view_rotate_stepper (n d : Int) (s : State) :
    session_view (rotate_stepper n d s) = session_view s :=
  session_view_rotate_loop _ _ _ _

theorem session_view_rotate_stepper_three_quarter (n d : Int) (s : State) :
    session_view (rotate_stepper_three_quarter n d s) = session_view s :=
  session_view_rotate_loop _ _ _ _

theorem session_view_show_clock (s : State) :
    session_view (show_clock s) = session_view s := by
  simp only [show_clock, session_view_lq_print, session_view_lq_setCursor]

theorem session_view_RTC_Set (s : State) : session_view (RTC_Set s) = session_view s := by
  unfold RTC_Set
  exact session_view_emit _ _ (by simp)

theorem session_view_RTC_Get (a : DateTime_t) (s : State) :
    session_view (RTC_Get a s) = session_view s := by
  unfold RTC_Get
  rw [session_view_emit _ _ (by simp)]
  rfl

theorem session_view_set_date_and_time (a b : List Char) (j k : Int × Int × Int) (s : State) :
    session_view (set_date_and_time a b j k s) = session_view s := rfl

theorem session_view_set_duty_cycle (d : Int) (s : State) :
    session_view (set_duty_cycle d s) = session_view s := by
  unfold set_duty_cycle
  show session_view (emit _ _) = _
  rw [session_view_emit _ _ (by simp)]
  rfl

theorem session_view_function_set_time (e : Env) (s : State) :
    session_view (function_set_time e s) = session_view s := by
  unfold function_set_time
  rw [session_view_serial _ _ (by decide)]
  by_cases hk : e.rtc_ok_after_set = true <;>
    simp [hk, session_view_show_clock, session_view_RTC_Get, session_view_RTC_Set,
      session_view_set_date_and_time]

theorem session_view_function_set_lamp (s : State) :
    session_view (function_set_lamp s) = session_view s := by
  unfold function_set_lamp
  rw [session_view_serial _ _ (by decide)]
  simp only [session_view_lq_print, session_view_lq_setCursor, session_view_set_duty_cycle]

theorem session_view_is_open (s : State) (b : Bool) :
    session_view { s with is_open := b } = session_view s := rfl

theorem session_view_function_open_curtain (s : State) :
    session_view (function_open_curtain s) = session_view s := by
  unfold function_open_curtain
  by_cases h : s.is_open = true
  · simp only [h, Bool.not_true, Bool.false_eq_true, if_false]
    exact session_view_serial _ _ (by decide)
  · simp only [h, Bool.not_false, Bool.not_eq_true] at h ⊢
    simp only [h, Bool.not_false, if_true]
    rw [session_view_is_open, session_view_serial _ _ (by decide), session_view_lq_print, session_view_lq_setCursor,
      session_view_rotate_stepper_three_quarter, session_view_rotate_stepper,
      session_view_serial _ _ (by decide)]

theorem session_view_function_close_curtain (s : State) :
    session_view (function_close_curtain s) = session_view s := by
  unfold function_close_curtain
  by_cases h : s.is_open = true
  · simp only [h, if_true]
    rw [session_view_is_open, session_view_serial _ _ (by decide), session_view_lq_print, session_view_lq_setCursor,
      session_view_rotate_stepper, session_view_rotate_stepper_three_quarter,
      session_view_serial _ _ (by decide)]
  · simp only [h, if_false]
    exact session_view_serial _ _ (by decide)

theorem session_view_function_help (s : State) :
    session_view (function_help s) = session_view s := by
  unfold function_help
  repeat rw [session_view_serial _ _ (by decide)]

theorem session_view_function_after_one_second (e : Env) (s : State) :
    session_view (function_after_one_second e s) = session_view s := by
  unfold function_after_one_second
  by_cases hk : e.rtc_ok_now = true <;>
    simp [hk, session_view_show_clock, session_view_RTC_Get]

theorem session_view_commands (e : Env) (s : State) :
    session_view (serve_after_one_second e (serve_help (serve_close_curtain
      (serve_open_curtain (serve_set_lamp (serve_set_time e s)))))) = session_view s := by
  have h1 : ∀ x, session_view (serve_set_time e x) = session_view x := by
    intro x
    unfold serve_set_time
    split
    · exact session_view_function_set_time e x
    · rfl
  have h2 : ∀ x, session_view (serve_set_lamp x) = session_view x := by
    intro x
    unfold serve_set_lamp
    split
    · exact session_view_function_set_lamp x
    · rfl
  have h3 : ∀ x, session_view (serve_open_curtain x) = session_view x := by
    intro x
    unfold serve_open_curtain
    split
    · exact session_view_function_open_curtain x
    · rfl
  have h4 : ∀ x, session_view (serve_close_curtain x) = session_view x := by
    intro x
    unfold serve_close_curtain
    split
    · exact session_view_function_close_curtain x
    · rfl
  have h5 : ∀ x, session_view (serve_help x) = session_view x := by
    intro x
    unfold serve_help
    split
    · exact session_view_function_help x
    · rfl
  have h6 : ∀ x, session_view (serve_after_one_second e x) = session_view x := by
    intro x
    unfold serve_after_one_second
    split
    · exact session_view_function_after_one_second e x
    · rfl
  rw [h6, h5, h4, h3, h2, h1]

theorem session_view_TIMER1_OVF (s : State) :
    session_view (TIMER1_OVF s) =
      (s.login, wrap16 (s.counter + 1),
        if wrap16 (s.counter + 1) = 60 then true else s.after_one_minute,
        count_serial "\rSession timeout!" s.trace) := by
  unfold TIMER1_OVF
  by_cases h : wrap16 (s.counter + 1) = 60
  · simp only [h, if_true, session_view]
  · simp only [h, if_false, session_view]

theorem serve_session_timeout_idle (x : State)
    (h : (x.after_one_minute && x.login) = false) : serve_session_timeout x = x := by
  unfold serve_session_timeout
  rw [if_neg (by simp [h])]

theorem session_view_serve_session_timeout_fire (x : State)
    (h1 : x.after_one_minute = true) (h2 : x.login = true) :
    session_view (serve_session_timeout x) =
      (false, 0, false, count_serial "\rSession timeout!" x.trace + 1) := by
  unfold serve_session_timeout
  rw [if_pos (by simp [h1, h2])]
  simp [session_view, function_session_timeout, serial_send_string, emit, count_serial,
    List.count_append, List.count_cons]

theorem session_view_tick_idle (e : Env) (s : State) (k : Int) (n : Nat)
    (hs : session_view s = (true, k, false, n)) (h0 : 0 ≤ k) (hk : k < 59) :
    session_view (tick_then_loop e s) = (true, k + 1, false, n) := by
  simp only [session_view, Prod.mk.injEq] at hs
  obtain ⟨hl, hc, hm, hn⟩ := hs
  have hw : wrap16 (s.counter + 1) = k + 1 := by
    unfold wrap16
    omega
  have ht : session_view (TIMER1_OVF s) = (true, k + 1, false, n) := by
    have hne : ¬ (wrap16 (s.counter + 1) = 60) := by omega
    rw [session_view_TIMER1_OVF, if_neg hne, hl, hw, hm, hn]
  unfold tick_then_loop main_loop
  generalize hx : serve_after_one_second e (serve_help (serve_close_curtain
      (serve_open_curtain (serve_set_lamp (serve_set_time e (TIMER1_OVF s)))))) = x
  have hv : session_view x = (true, k + 1, false, n) := by
    rw [← hx, session_view_commands, ht]
  simp only [session_view, Prod.mk.injEq] at hv
  have hidle : (x.after_one_minute && x.login) = false := by simp [hv.2.2.1]
  rw [serve_session_timeout_idle x hidle]
  simp only [session_view, hv]

theorem session_view_tick_fire (e : Env) (s : State) (n : Nat)
    (hs : session_view s = (true, 59, false, n)) :
    session_view (tick_then_loop e s) = (false, 0, false, n + 1) := by
  simp only [session_view, Prod.mk.injEq] at hs
  obtain ⟨hl, hc, hm, hn⟩ := hs
  have hw : wrap16 (s.counter + 1) = 60 := by
    unfold wrap16
    omega
  have ht : session_view (TIMER1_OVF s) = (true, 60, true, n) := by
    rw [session_view_TIMER1_OVF, if_pos hw, hl, hw, hn]
  unfold tick_then_loop main_loop
  generalize hx : serve_after_one_second e (serve_help (serve_close_curtain
      (serve_open_curtain (serve_set_lamp (serve_set_time e (TIMER1_OVF s)))))) = x
  have hv : session_view x = (true, 60, true, n) := by
    rw [← hx, session_view_commands, ht]
  simp only [session_view, Prod.mk.injEq] at hv
  have hfire : (x.after_one_minute && x.login) = true := by simp [hv.1, hv.2.2.1]
  rw [session_view_serve_session_timeout_fire x hv.2.2.1 hv.1, hv.2.2.2]

theorem session_view_run_ticks (es : List Env) (s : State) (k : Int) (n : Nat)
    (hs : session_view s = (true, k, false, n)) (h0 : 0 ≤ k) (hk : k + es.length ≤ 59) :
    session_view (run_ticks es s) = (true, k + es.length, false, n) := by
  induction es generalizing s k with
  | nil => simpa [run_ticks] using hs
  | cons e es ih =>
    simp only [List.length_cons, Nat.cast_add, Nat.cast_one] at hk ⊢
    have h1 := session_view_tick_idle e s k n hs h0 (by omega)
    have h2 := ih (tick_then_loop e s) (k + 1) h1 (by omega) (by omega)
    simp only [run_ticks, h2]
    congr 2
    omega

theorem dispatch_session (line : List Char) (s : State) :
    (dispatch line s).login = s.login ∧ (dispatch line s).counter = s.counter ∧
      (dispatch line s).after_one_minute = s.after_one_minute := by
  unfold dispatch
  split_ifs <;> simp [serial_send_string, emit]

theorem poke_same (mem : Nat → Char) (i : Nat) (v : Char) : poke mem i v i = v := by
  simp [poke]

theorem poke_other (mem : Nat → Char) (i j : Nat) (v : Char) (h : j ≠ i) :
    poke mem i v j = mem j := by
  simp [poke, h]

/-- Reading a C string only looks at the offsets it passes. -/
theorem c_str_from_congr (m1 m2 : Nat → Char) (start fuel : Nat)
    (h : ∀ j, start ≤ j → j < start + fuel → m1 j = m2 j) :
    c_str_from m1 start fuel = c_str_from m2 start fuel := by
  induction fuel generalizing start with
  | zero => rfl
  | succ n ih =>
    have h0 : m1 start = m2 start := h start (le_refl _) (by omega)
    have hr := ih (start + 1) (fun j hj1 hj2 => h j (by omega) (by omega))
    simp only [c_str_from, h0, hr]

theorem c_str_from_poke (mem : Nat → Char) (i : Nat) (v : Char) :
    c_str_from (poke mem i v) 0 i = c_str_from mem 0 i :=
  c_str_from_congr _ _ 0 i (fun j _ hj => poke_other mem i j v (by omega))

/-- The completing branch of `get_user_cmd`: the character is a carriage return
or a NUL, and the line is the C string found below the index. -/
theorem get_user_cmd_done (c : Char) (stack : Nat → Char) (s : State)
    (h : c = '\r' ∨ c = NUL) :
    get_user_cmd c stack s =
      ({ dispatch (c_str_from stack 0 s.cmd_index)
            (split_string_by_space (c_str_from stack 0 s.cmd_index) s) with cmd_index := 0 },
        poke (poke stack s.cmd_index NUL) 0 NUL) := by
  have hpoke : (if c = '\r' then poke stack s.cmd_index NUL else poke stack s.cmd_index c) =
      poke stack s.cmd_index NUL := by
    rcases h with h | h
    · rw [if_pos h]
    · rw [h]; simp
  unfold get_user_cmd
  simp only [hpoke, poke_same, if_true, c_str_from_poke]

/-- The accumulating branch of `get_user_cmd`. -/
theorem get_user_cmd_more (c : Char) (stack : Nat → Char) (s : State)
    (h1 : c ≠ '\r') (h2 : c ≠ NUL) :
    get_user_cmd c stack s =
      ({ s with cmd_index := (s.cmd_index + 1) % 256 }, poke stack s.cmd_index c) := by
  unfold get_user_cmd
  simp only [if_neg h1, poke_same, if_neg h2]

theorem get_user_cmd_session (c : Char) (stack : Nat → Char) (s : State) :
    (get_user_cmd c stack s).1.login = s.login ∧
      (get_user_cmd c stack s).1.counter = s.counter ∧
      (get_user_cmd c stack s).1.after_one_minute = s.after_one_minute := by
  by_cases h : c = '\r' ∨ c = NUL
  · rw [get_user_cmd_done c stack s h]
    exact dispatch_session _ _
  · rw [get_user_cmd_more c stack s (fun hc => h (Or.inl hc)) (fun hc => h (Or.inr hc))]
    exact ⟨rfl, rfl, rfl⟩

theorem USART_RXC_session (c : Char) (stack : Nat → Char) (s : State)
    (h : s.login = true) :
    (USART_RXC c stack s).1.login = true ∧ (USART_RXC c stack s).1.counter = 0 ∧
      (USART_RXC c stack s).1.after_one_minute = s.after_one_minute := by
  have hg := get_user_cmd_session c stack { emit (Event.udr c) s with counter := 0 }
  have hu : USART_RXC c stack s =
      get_user_cmd c stack { emit (Event.udr c) s with counter := 0 } := by
    unfold USART_RXC
    exact if_pos h
  rw [hu]
  exact ⟨hg.1.trans h, hg.2.1, hg.2.2⟩

theorem run_ticks_snoc (es : List Env) (e : Env) (s : State) :
    run_ticks (es ++ [e]) s = tick_then_loop e (run_ticks es s) := by
  induction es generalizing s with
  | nil => rfl
  | cons a l ih => exact ih (tick_then_loop a s)

theorem c_str_from_holds (mem : Nat → Char) (line : List Char) (a : Nat)
    (h : ∀ j (hj : j < line.length), mem (a + j) = line.get ⟨j, hj⟩)
    (hn : ∀ c ∈ line, c ≠ NUL) :
    c_str_from mem a line.length = line := by
  induction line generalizing a with
  | nil => rfl
  | cons c cs ih =>
    have h0 : mem a = c := by simpa using h 0 (by simp)
    have hc : c ≠ NUL := hn c (by simp)
    have hrest := ih (a + 1)
      (fun j hj => by
        have := h (j + 1) (by simpa using hj)
        simpa [Nat.add_assoc, Nat.add_comm 1 j] using this)
      (fun x hx => hn x (by simp [hx]))
    simp only [List.length_cons, c_str_from, h0, if_neg hc, hrest]

theorem c_str_of_holds (stack : Nat → Char) (line : List Char) (h : holds stack line)
    (hn : ∀ c ∈ line, c ≠ NUL) : c_str_from stack 0 line.length = line :=
  c_str_from_holds stack line 0 (fun j hj => by simpa using h j hj) hn

theorem holds_poke (stack : Nat → Char) (line : List Char) (c : Char)
    (h : holds stack line) : holds (poke stack line.length c) (line ++ [c]) := by
  intro j hj
  by_cases hlt : j < line.length
  · rw [poke_other _ _ _ _ (by omega), h j hlt]
    simp [List.getElem_append_left, hlt]
  · have hje : j = line.length := by
      simp only [List.length_append, List.length_singleton] at hj
      omega
    subst hje
    rw [poke_same]
    simp

/-- The completing branch of `password_validation`. -/
theorem password_validation_done (c : Char) (stack : Nat → Char) (s : State)
    (h : c = '\r' ∨ c = NUL) :
    password_validation c stack s =
      ({ (if c_str_from stack 0 s.pw_index = "1234".toList then
            serial_send_string "\rWelcome back, I'm ready!\r"
              { s with login := true, after_one_minute := false, counter := 0 }
          else serial_send_string "\rIncorrect password!\r" s) with pw_index := 0 },
        poke (poke stack s.pw_index NUL) 0 NUL) := by
  have hpoke : (if c = '\r' then poke stack s.pw_index NUL else poke stack s.pw_index c) =
      poke stack s.pw_index NUL := by
    rcases h with h | h
    · rw [if_pos h]
    · rw [h]; simp
  unfold password_validation
  simp only [hpoke, poke_same, if_true, c_str_from_poke]

/-- The accumulating branch of `password_validation`. -/
theorem password_validation_more (c : Char) (stack : Nat → Char) (s : State)
    (h1 : c ≠ '\r') (h2 : c ≠ NUL) :
    password_validation c stack s =
      ({ s with pw_index := (s.pw_index + 1) % 256 }, poke stack s.pw_index c) := by
  unfold password_validation
  simp only [if_neg h1, poke_same, if_neg h2]

theorem USART_RXC_logged_out (c : Char) (stack : Nat → Char) (s : State)
    (h : s.login = false) :
    USART_RXC c stack s =
      password_validation c stack { emit (Event.udr c) s with counter := 0 } := by
  unfold USART_RXC
  exact if_neg (by simp [emit, h])

theorem is_terminator_false (c : Char) (h : is_terminator c = false) :
    c ≠ '\r' ∧ c ≠ NUL := by
  simp only [is_terminator, Bool.or_eq_false_iff, decide_eq_false_iff_not] at h
  exact h

/-- While logged out, characters other than terminators pile up in the retained
stack region and move the password index; nothing else of the session changes. -/
theorem feed_retained_password_chars (cs line : List Char) (stack : Nat → Char) (s : State)
    (hout : s.login = false) (hidx : s.pw_index = line.length) (hst : holds stack line)
    (hlen : line.length + cs.length < 256)
    (hterm : ∀ c ∈ cs, is_terminator c = false) :
    (feed_retained cs stack s).1.login = false ∧
    (feed_retained cs stack s).1.pw_index = line.length + cs.length ∧
    holds (feed_retained cs stack s).2 (line ++ cs) := by
  induction cs generalizing line stack s with
  | nil => simpa [feed_retained] using ⟨hout, hidx, hst⟩
  | cons c cs ih =>
    have hc := is_terminator_false c (hterm c (by simp))
    have hstep : USART_RXC c stack s =
        ({ s with trace := s.trace ++ [Event.udr c], counter := 0,
                  pw_index := (s.pw_index + 1) % 256 }, poke stack s.pw_index c) := by
      rw [USART_RXC_logged_out c stack s hout, password_validation_more _ _ _ hc.1 hc.2]
      rfl
    simp only [List.length_cons] at hlen
    have hmod : (s.pw_index + 1) % 256 = (line ++ [c]).length := by
      rw [hidx, List.length_append, List.length_singleton]
      exact Nat.mod_eq_of_lt (by omega)
    have := ih (line ++ [c]) (poke stack s.pw_index c)
      { s with trace := s.trace ++ [Event.udr c], counter := 0,
               pw_index := (s.pw_index + 1) % 256 }
      hout hmod (by rw [hidx]; exact holds_poke stack line c hst)
      (by simp only [List.length_append, List.length_singleton]; omega)
      (fun x hx => hterm x (by simp [hx]))
    simp only [feed_retained, hstep]
    simpa [Nat.add_assoc, Nat.add_comm 1] using this

theorem feed_retained_append (cs ds : List Char) (stack : Nat → Char) (s : State) :
    feed_retained (cs ++ ds) stack s =
      feed_retained ds (feed_retained cs stack s).2 (feed_retained cs stack s).1 := by
  induction cs generalizing stack s with
  | nil => rfl
  | cons c cs ih => exact ih (USART_RXC c stack s).2 (USART_RXC c stack s).1

/-- Password check when the stack region of `rec` is retained between the
handler calls.  For every line `L` of fewer than `MAX` characters without a
terminator, receiving `L` and a carriage return while logged out, from line
index 0, ends with line index 0; it ends with `login = true`, `counter = 0` and
the welcome text as the last output when `L` is `1234`, and with `login = false`
and the text `Incorrect password!` as the last output for every other `L`. -/
theorem password_check_retained (L : List Char) (stack : Nat → Char) (s : State)
    (hout : s.login = false) (hidx : s.pw_index = 0) (hlen : L.length < MAX)
    (hterm : ∀ c ∈ L, is_terminator c = false) :
    (feed_retained (L ++ ['\r']) stack s).1.pw_index = 0 ∧
    (L = "1234".toList →
      (feed_retained (L ++ ['\r']) stack s).1.login = true ∧
      (feed_retained (L ++ ['\r']) stack s).1.counter = 0 ∧
      (feed_retained (L ++ ['\r']) stack s).1.trace.getLast? =
        some (Event.serial_send_string "\rWelcome back, I'm ready!\r")) ∧
    (L ≠ "1234".toList →
      (feed_retained (L ++ ['\r']) stack s).1.login = false ∧
      (feed_retained (L ++ ['\r']) stack s).1.trace.getLast? =
        some (Event.serial_send_string "\rIncorrect password!\r")) := by
  have hacc := feed_retained_password_chars L [] stack s hout (by simpa using hidx)
    (fun j hj => absurd hj (by simp)) (by simp only [List.length_nil, MAX] at *; omega) hterm
  simp only [List.length_nil, Nat.zero_add, List.nil_append] at hacc
  obtain ⟨hl, hi, hh⟩ := hacc
  have hstr : c_str_from (feed_retained L stack s).2 0 (feed_retained L stack s).1.pw_index = L := by
    rw [hi]
    exact c_str_of_holds _ L hh (fun c hc => (is_terminator_false c (hterm c hc)).2)
  have hlast : feed_retained (L ++ ['\r']) stack s =
      USART_RXC '\r' (feed_retained L stack s).2 (feed_retained L stack s).1 := by
    rw [feed_retained_append]
    rfl
  rw [hlast, USART_RXC_logged_out _ _ _ hl, password_validation_done _ _ _ (Or.inl rfl)]
  have hstr2 : c_str_from (feed_retained L stack s).2 0
      ({ emit (Event.udr '\r') (feed_retained L stack s).1 with counter := 0 } : State).pw_index
        = L := hstr
  rw [hstr2]
  refine ⟨rfl, ?_, ?_⟩
  · intro h
    rw [if_pos h]
    simp [serial_send_string, emit]
  · intro h
    rw [if_neg h]
    simp [serial_send_string, emit, hl]

/-- The input `1234` and a carriage return logs in when the stack region is
retained: `password_check_retained` at the power-on state. -/
theorem password_check_retained_witness :
    (feed_retained ("1234".toList ++ ['\r']) stack_x boot).1.login = true :=
  ((password_check_retained "1234".toList stack_x boot rfl rfl (by decide)
    (by decide)).2.1 rfl).1

/-- C2. Password check, evaluated where the stack region of `rec` is not
retained.  Each of the five handler calls for `1234` and carriage return enters
with `rec` holding the letter x everywhere: the completed line is compared as
`xxxx`, so `login` stays false and `Incorrect password!` is the last output.
Conversely the four letters `abcd` followed by a carriage return log in when the
last call finds `1234` in the stack region. -/
theorem password_validation_stack_not_retained :
    (feed_frames [('1', stack_x), ('2', stack_x), ('3', stack_x), ('4', stack_x),
      ('\r', stack_x)] boot).login = false ∧
    (feed_frames [('1', stack_x), ('2', stack_x), ('3', stack_x), ('4', stack_x),
      ('\r', stack_x)] boot).trace.getLast? =
        some (Event.serial_send_string "\rIncorrect password!\r") ∧
    (feed_frames [('a', stack_x), ('b', stack_x), ('c', stack_x), ('d', stack_x),
      ('\r', fun j => "1234".toList.getD j 'x')] boot).login = true := by
  refine ⟨by rfl, by rfl, by rfl⟩

/-! ## Authentication gate -/

set_option maxRecDepth 100000

/-- The logged-out state outside the range of the authentication gate: after 200
letters at power-on the session is still logged out, the password line index is
200, which is not below `MAX`, and the handler call for the next character
stores it at offset 200 of the 200-byte array. -/
theorem auth_gate_index_at_max :
    (feed_retained (List.replicate 200 'a') stack_x boot).1.login = false ∧
    (feed_retained (List.replicate 200 'a') stack_x boot).1.pw_index = 200 ∧
    ¬ (feed_retained (List.replicate 200 'a') stack_x boot).1.pw_index < MAX ∧
    (USART_RXC 'b' (feed_retained (List.replicate 200 'a') stack_x boot).2
      (feed_retained (List.replicate 200 'a') stack_x boot).1).2 200 = 'b' := by
  refine ⟨by rfl, by rfl, ?_, by rfl⟩
  have h : (feed_retained (List.replicate 200 'a') stack_x boot).1.pw_index = 200 := by rfl
  rw [h]
  decide

set_option maxRecDepth 512

/-! ## Dispatcher -/

theorem words_acc_run (cur l : List Char) :
    words_acc cur l =
      (if cur ++ l.takeWhile (fun c => !isspace c) = [] then []
        else [cur ++ l.takeWhile (fun c => !isspace c)]) ++
      words_acc [] (l.dropWhile (fun c => !isspace c)) := by
  induction l generalizing cur with
  | nil => simp [words_acc]
  | cons c cs ih =>
    cases hc : isspace c
    · rw [words_acc, if_neg (by simp [hc]), ih (cur ++ [c])]
      simp [List.takeWhile_cons, List.dropWhile_cons, hc]
    · simp only [List.takeWhile_cons, List.dropWhile_cons, hc, Bool.not_true,
        Bool.false_eq_true, if_false, List.append_nil]
      rw [words_acc, if_pos hc]
      by_cases hcur : cur = []
      · simp [hcur, words_acc, hc]
      · simp [hcur, words_acc, hc]

theorem words_acc_skip (l : List Char) :
    words_acc [] l = words_acc [] (l.dropWhile isspace) := by
  induction l with
  | nil => rfl
  | cons c cs ih =>
    cases hc : isspace c
    · simp [List.dropWhile_cons, hc]
    · rw [words_acc, if_pos hc, if_pos rfl, ih]
      simp [List.dropWhile_cons, hc]

/-- One `%s` conversion reads the first word, if there is one, and leaves the
input holding the remaining words. -/
theorem scan_s_words (inp : List Char) :
    (scan_s inp = none → words inp = []) ∧
    (∀ w r, scan_s inp = some (w, r) → words inp = w :: words r) := by
  unfold scan_s words
  rw [words_acc_skip inp]
  generalize hr : inp.dropWhile isspace = r0
  have hhead : ∀ c cs, r0 = c :: cs → isspace c = false := by
    intro c cs h
    have hne : inp.dropWhile isspace ≠ [] := by rw [hr, h]; simp
    have := List.head_dropWhile_not isspace inp hne
    simpa [hr, h] using this
  cases r0 with
  | nil => simp [words_acc]
  | cons c cs =>
    have hc := hhead c cs rfl
    refine ⟨by simp, ?_⟩
    intro w r h
    simp only [List.cons_ne_nil, if_false, Option.some.injEq, Prod.mk.injEq] at h
    obtain ⟨hw, hrr⟩ := h
    rw [words_acc_run [] (c :: cs), ← hw, ← hrr]
    simp [List.takeWhile_cons, hc]

/-- The four `%s` conversions of `split_string_by_space` deliver the first four
words of the line, an absent word being empty. -/
theorem sscanf_4s_words (line : List Char) :
    sscanf_4s line = (nth_word line 0, nth_word line 1, nth_word line 2, nth_word line 3) := by
  cases h1 : scan_s line with
  | none => simp [sscanf_4s, nth_word, h1, (scan_s_words line).1 h1]
  | some p1 =>
    obtain ⟨w1, r1⟩ := p1
    have e1 := (scan_s_words line).2 w1 r1 h1
    cases h2 : scan_s r1 with
    | none => simp [sscanf_4s, nth_word, h1, h2, e1, (scan_s_words r1).1 h2]
    | some p2 =>
      obtain ⟨w2, r2⟩ := p2
      have e2 := (scan_s_words r1).2 w2 r2 h2
      cases h3 : scan_s r2 with
      | none => simp [sscanf_4s, nth_word, h1, h2, h3, e1, e2, (scan_s_words r2).1 h3]
      | some p3 =>
        obtain ⟨w3, r3⟩ := p3
        have e3 := (scan_s_words r2).2 w3 r3 h3
        cases h4 : scan_s r3 with
        | none =>
          simp [sscanf_4s, nth_word, h1, h2, h3, h4, e1, e2, e3, (scan_s_words r3).1 h4]
        | some p4 =>
          obtain ⟨w4, r4⟩ := p4
          have e4 := (scan_s_words r3).2 w4 r4 h4
          simp [sscanf_4s, nth_word, h1, h2, h3, h4, e1, e2, e3, e4]

theorem split_string_by_space_key (line : List Char) (s : State) :
    (split_string_by_space line s).cmd_key = key_of line := by
  unfold split_string_by_space key_of
  rw [sscanf_4s_words]

theorem split_string_by_space_frame (line : List Char) (s : State) :
    pending (split_string_by_space line s) = pending s ∧
      (split_string_by_space line s).trace = s.trace := by
  unfold split_string_by_space
  rcases sscanf_4s line with ⟨w1, w2, w3, w4⟩
  exact ⟨rfl, rfl⟩

/-- The dispatcher on the line found in the buffer.  When the terminator
arrives, the completed line is the C string that `rec` holds below the line
index.  If its key is `set time`,
`set lamp`, `open curtain` or `close curtain`, or the whole line is `help`,
`get_user_cmd` sets the corresponding pending flag, leaves the other four flags
as they were and emits nothing; for every other line it emits `Error!` and leaves
all five flags as they were. -/
theorem dispatcher (stack : Nat → Char) (s : State) :
    (key_of (c_str_from stack 0 s.cmd_index) = "set time".toList →
      pending (get_user_cmd '\r' stack s).1 =
        (true, s.set_lamp, s.open_curtain, s.close_curtain, s.help) ∧
      (get_user_cmd '\r' stack s).1.trace = s.trace) ∧
    (key_of (c_str_from stack 0 s.cmd_index) = "set lamp".toList →
      pending (get_user_cmd '\r' stack s).1 =
        (s.set_time, true, s.open_curtain, s.close_curtain, s.help) ∧
      (get_user_cmd '\r' stack s).1.trace = s.trace) ∧
    (key_of (c_str_from stack 0 s.cmd_index) = "open curtain".toList →
      pending (get_user_cmd '\r' stack s).1 =
        (s.set_time, s.set_lamp, true, s.close_curtain, s.help) ∧
      (get_user_cmd '\r' stack s).1.trace = s.trace) ∧
    (key_of (c_str_from stack 0 s.cmd_index) = "close curtain".toList →
      pending (get_user_cmd '\r' stack s).1 =
        (s.set_time, s.set_lamp, s.open_curtain, true, s.help) ∧
      (get_user_cmd '\r' stack s).1.trace = s.trace) ∧
    (c_str_from stack 0 s.cmd_index = "help".toList →
      pending (get_user_cmd '\r' stack s).1 =
        (s.set_time, s.set_lamp, s.open_curtain, s.close_curtain, true) ∧
      (get_user_cmd '\r' stack s).1.trace = s.trace) ∧
    (key_of (c_str_from stack 0 s.cmd_index) ≠ "set time".toList →
      key_of (c_str_from stack 0 s.cmd_index) ≠ "set lamp".toList →
      key_of (c_str_from stack 0 s.cmd_index) ≠ "open curtain".toList →
      key_of (c_str_from stack 0 s.cmd_index) ≠ "close curtain".toList →
      c_str_from stack 0 s.cmd_index ≠ "help".toList →
      pending (get_user_cmd '\r' stack s).1 = pending s ∧
      (get_user_cmd '\r' stack s).1.trace =
        s.trace ++ [Event.serial_send_string "\rError!\r"]) := by
  rw [get_user_cmd_done '\r' stack s (Or.inl rfl)]
  generalize c_str_from stack 0 s.cmd_index = line
  have hk := split_string_by_space_key line s
  obtain ⟨hp, ht⟩ := split_string_by_space_frame line s
  generalize split_string_by_space line s = s1 at hk hp ht
  simp only [pending, Prod.mk.injEq] at hp
  obtain ⟨h1, h2, h3, h4, h5⟩ := hp
  have e1 : "set lamp".toList ≠ "set time".toList := by decide
  have e2 : "open curtain".toList ≠ "set time".toList := by decide
  have e3 : "open curtain".toList ≠ "set lamp".toList := by decide
  have e4 : "close curtain".toList ≠ "set time".toList := by decide
  have e5 : "close curtain".toList ≠ "set lamp".toList := by decide
  have e6 : "close curtain".toList ≠ "open curtain".toList := by decide
  have k1 : key_of "help".toList ≠ "set time".toList := by decide
  have k2 : key_of "help".toList ≠ "set lamp".toList := by decide
  have k3 : key_of "help".toList ≠ "open curtain".toList := by decide
  have k4 : key_of "help".toList ≠ "close curtain".toList := by decide
  refine ⟨?_, ?_, ?_, ?_, ?_, ?_⟩
  · intro h
    rw [← hk] at h
    simp only [dispatch, if_pos h, pending, h2, h3, h4, h5, ht, and_self]
  · intro h
    rw [← hk] at h
    have n1 : s1.cmd_key ≠ "set time".toList := h ▸ e1
    simp only [dispatch, if_neg n1, if_pos h, pending, h1, h3, h4, h5, ht, and_self]
  · intro h
    rw [← hk] at h
    have n1 : s1.cmd_key ≠ "set time".toList := h ▸ e2
    have n2 : s1.cmd_key ≠ "set lamp".toList := h ▸ e3
    simp only [dispatch, if_neg n1, if_neg n2, if_pos h, pending, h1, h2, h4, h5, ht, and_self]
  · intro h
    rw [← hk] at h
    have n1 : s1.cmd_key ≠ "set time".toList := h ▸ e4
    have n2 : s1.cmd_key ≠ "set lamp".toList := h ▸ e5
    have n3 : s1.cmd_key ≠ "open curtain".toList := h ▸ e6
    simp only [dispatch, if_neg n1, if_neg n2, if_neg n3, if_pos h, pending, h1, h2, h3, h5, ht,
      and_self]
  · intro h
    subst h
    rw [← hk] at k1 k2 k3 k4
    simp only [dispatch, if_neg k1, if_neg k2, if_neg k3, if_neg k4, if_true, pending, h1, h2,
      h3, h4, ht, and_self]
  · intro n1 n2 n3 n4 n5
    rw [← hk] at n1 n2 n3 n4
    simp only [dispatch, if_neg n1, if_neg n2, if_neg n3, if_neg n4, if_neg n5, pending, h1, h2,
      h3, h4, h5, serial_send_string, emit, ht, and_self]

/-- The dispatcher at concrete inputs: after a login, with `bananas` accumulated
in the retained stack region, the carriage return sets no flag and the output ends with `Error!`;
with `open curtain` accumulated it sets `open_curtain` only and emits nothing. -/
theorem dispatcher_witness :
    (pending (get_user_cmd '\r' (feed_retained "bananas".toList stack_x logged_in).2
        (feed_retained "bananas".toList stack_x logged_in).1).1 =
      (false, false, false, false, false) ∧
     (get_user_cmd '\r' (feed_retained "bananas".toList stack_x logged_in).2
        (feed_retained "bananas".toList stack_x logged_in).1).1.trace =
      (feed_retained "bananas".toList stack_x logged_in).1.trace ++
        [Event.serial_send_string "\rError!\r"]) ∧
    (pending (get_user_cmd '\r' (feed_retained "open curtain".toList stack_x logged_in).2
        (feed_retained "open curtain".toList stack_x logged_in).1).1 =
      (false, false, true, false, false) ∧
     (get_user_cmd '\r' (feed_retained "open curtain".toList stack_x logged_in).2
        (feed_retained "open curtain".toList stack_x logged_in).1).1.trace =
      (feed_retained "open curtain".toList stack_x logged_in).1.trace) :=
  ⟨(dispatcher (feed_retained "bananas".toList stack_x logged_in).2
      (feed_retained "bananas".toList stack_x logged_in).1).2.2.2.2.2
      (by decide) (by decide) (by decide) (by decide) (by decide),
   (dispatcher (feed_retained "open curtain".toList stack_x logged_in).2
      (feed_retained "open curtain".toList stack_x logged_in).1).2.2.1 (by decide)⟩

/-! ## The command line under retained storage -/

/-- While logged in, characters other than terminators pile up in the retained
stack region and move the command index; the pending flags stay as they were. -/
theorem feed_retained_command_chars (cs line : List Char) (stack : Nat → Char) (s : State)
    (hin : s.login = true) (hidx : s.cmd_index = line.length) (hst : holds stack line)
    (hlen : line.length + cs.length < 256)
    (hterm : ∀ c ∈ cs, is_terminator c = false) :
    (feed_retained cs stack s).1.login = true ∧
    (feed_retained cs stack s).1.cmd_index = line.length + cs.length ∧
    holds (feed_retained cs stack s).2 (line ++ cs) ∧
    pending (feed_retained cs stack s).1 = pending s := by
  induction cs generalizing line stack s with
  | nil => simpa [feed_retained] using ⟨hin, hidx, hst⟩
  | cons c cs ih =>
    have hc := is_terminator_false c (hterm c (by simp))
    have hstep : USART_RXC c stack s =
        ({ s with trace := s.trace ++ [Event.udr c], counter := 0,
                  cmd_index := (s.cmd_index + 1) % 256 }, poke stack s.cmd_index c) := by
      have hu : USART_RXC c stack s =
          get_user_cmd c stack { emit (Event.udr c) s with counter := 0 } := by
        unfold USART_RXC
        exact if_pos hin
      rw [hu, get_user_cmd_more _ _ _ hc.1 hc.2]
      rfl
    simp only [List.length_cons] at hlen
    have hmod : (s.cmd_index + 1) % 256 = (line ++ [c]).length := by
      rw [hidx, List.length_append, List.length_singleton]
      exact Nat.mod_eq_of_lt (by omega)
    have := ih (line ++ [c]) (poke stack s.cmd_index c)
      { s with trace := s.trace ++ [Event.udr c], counter := 0,
               cmd_index := (s.cmd_index + 1) % 256 }
      hin hmod (by rw [hidx]; exact holds_poke stack line c hst)
      (by simp only [List.length_append, List.length_singleton]; omega)
      (fun x hx => hterm x (by simp [hx]))
    simp only [feed_retained, hstep]
    simpa [Nat.add_assoc, Nat.add_comm 1, pending] using this

/-- When the stack region of `rec` is retained between the handler calls, the
line that `get_user_cmd` completes is the line received: after the characters
of `L` (fewer than `MAX`, no terminator) arrived while logged in, from line
index 0, the C string below the index is `L`, and the flags are untouched. -/
theorem command_line_retained (L : List Char) (stack : Nat → Char) (s : State)
    (hin : s.login = true) (hidx : s.cmd_index = 0) (hlen : L.length < MAX)
    (hterm : ∀ c ∈ L, is_terminator c = false) :
    c_str_from (feed_retained L stack s).2 0 (feed_retained L stack s).1.cmd_index = L ∧
    (feed_retained L stack s).1.login = true ∧
    pending (feed_retained L stack s).1 = pending s := by
  have hacc := feed_retained_command_chars L [] stack s hin (by simpa using hidx)
    (fun j hj => absurd hj (by simp)) (by simp only [List.length_nil, MAX] at *; omega) hterm
  simp only [List.length_nil, Nat.zero_add, List.nil_append] at hacc
  obtain ⟨hl, hi, hh, hp⟩ := hacc
  refine ⟨?_, hl, hp⟩
  rw [hi]
  exact c_str_of_holds _ L hh (fun c hc => (is_terminator_false c (hterm c hc)).2)

/-- The line `open curtain` received after a login, with retained storage:
`command_line_retained` at a concrete input. -/
theorem command_line_retained_witness :
    c_str_from (feed_retained "open curtain".toList stack_x logged_in).2 0
      (feed_retained "open curtain".toList stack_x logged_in).1.cmd_index =
        "open curtain".toList :=
  (command_line_retained "open curtain".toList stack_x logged_in (by rfl) (by rfl)
    (by decide) (by decide)).1

/-! ## Stepper and curtain -/

theorem apply_phases_nil (s : State) : apply_phases [] s = s := by
  simp [apply_phases, phase_events]

theorem phase_events_append (ps qs : List Nat) :
    phase_events (ps ++ qs) = phase_events ps ++ phase_events qs := by
  induction ps with
  | nil => rfl
  | cons p ps ih => simp [phase_events, ih]

theorem apply_phases_append (ps qs : List Nat) (s : State) :
    apply_phases qs (apply_phases ps s) = apply_phases (ps ++ qs) s := by
  simp only [apply_phases, phase_events_append, List.append_assoc, List.getLast?_append]
  cases qs.getLast? <;> rfl

theorem stepper_phase_eq (p : Nat) (s : State) : stepper_phase p s = apply_phases [p] s := by
  simp [stepper_phase, apply_phases, phase_events, emit]

theorem phases_foldl (ps : List Nat) (s : State) :
    ps.foldl (fun st p => stepper_phase p st) s = apply_phases ps s := by
  induction ps generalizing s with
  | nil => exact (apply_phases_nil s).symm
  | cons p ps ih =>
    rw [List.foldl_cons, ih, stepper_phase_eq, apply_phases_append]
    rfl

theorem rotate_loop_eq (seq : List Nat) (d : Int) (n : Nat) (s : State) :
    rotate_loop seq d n s = apply_phases (repeat_phases (cycle_phases seq d) n) s := by
  induction n generalizing s with
  | zero => exact (apply_phases_nil s).symm
  | succ n ih =>
    simp only [rotate_loop, ih, phases_foldl, apply_phases_append, repeat_phases]

theorem stepper_writes_append (a b : List Event) :
    stepper_writes (a ++ b) = stepper_writes a ++ stepper_writes b := by
  induction a with
  | nil => rfl
  | cons e a ih => cases e <;> simp [stepper_writes, ih]

theorem stepper_writes_phase_events (ps : List Nat) :
    stepper_writes (phase_events ps) = ps := by
  induction ps with
  | nil => rfl
  | cons p ps ih => simp [phase_events, stepper_writes, ih]

theorem new_events_append (s r : State) (evs : List Event) (h : r.trace = s.trace ++ evs) :
    new_events s r = evs := by
  simp [new_events, h]

theorem repeat_phases_reverse (ps : List Nat) (n : Nat) :
    (repeat_phases ps n).reverse = repeat_phases ps.reverse n := by
  have comm : ∀ (qs : List Nat) (k : Nat),
      qs ++ repeat_phases qs k = repeat_phases qs k ++ qs := by
    intro qs k
    induction k with
    | zero => simp [repeat_phases]
    | succ k ih => rw [repeat_phases, List.append_assoc, ← ih]
  induction n with
  | zero => rfl
  | succ n ih =>
    simp only [repeat_phases, List.reverse_append, ih]
    exact (comm ps.reverse n).symm

theorem rotate_stepper_eq (n d : Int) (s : State) :
    rotate_stepper n d s =
      apply_phases (repeat_phases (cycle_phases [0x04, 0x02, 0x08, 0x01] d) n.toNat) s :=
  rotate_loop_eq _ _ _ _

theorem rotate_stepper_three_quarter_eq (n d : Int) (s : State) :
    rotate_stepper_three_quarter n d s =
      apply_phases (repeat_phases (cycle_phases [0x04, 0x02, 0x08] d) n.toNat) s :=
  rotate_loop_eq _ _ _ _

/-- The opening branch of `function_open_curtain`, as one state update. -/
theorem function_open_curtain_closed (s : State) (h : s.is_open = false) :
    function_open_curtain s =
      { s with
        is_open := true
        STEPPER_PORT := 0x08
        lcd := lcd_write s.lcd 0 13 "ON ".toList
        lcd_cursor := (0, 16)
        trace := s.trace ++ ([Event.serial_send_string "\rOpening...\r"] ++
          phase_events open_profile ++
          [Event.lq_setCursor 0 13, Event.lq_print "ON ".toList,
            Event.serial_send_string "\rDone.\r"]) } := by
  unfold function_open_curtain
  simp only [h, Bool.not_false, if_true, rotate_stepper_eq, rotate_stepper_three_quarter_eq,
    apply_phases_append]
  have hp : repeat_phases (cycle_phases [0x04, 0x02, 0x08, 0x01] CW) (9 : Int).toNat ++
      repeat_phases (cycle_phases [0x04, 0x02, 0x08] CW) (1 : Int).toNat = open_profile := by
    decide
  rw [hp]
  have hl : open_profile.getLast? = some 0x08 := by decide
  simp [apply_phases, serial_send_string, emit, lq_setCursor, lq_print, hl]

/-- The branch of `function_open_curtain` taken when the curtain is open. -/
theorem function_open_curtain_open (s : State) (h : s.is_open = true) :
    function_open_curtain s =
      { s with trace := s.trace ++
          [Event.serial_send_string "\rThe curtain is already open!\r"] } := by
  unfold function_open_curtain
  simp only [h, Bool.not_true, Bool.false_eq_true, if_false, serial_send_string, emit]

/-- The closing branch of `function_close_curtain`, as one state update. -/
theorem function_close_curtain_open (s : State) (h : s.is_open = true) :
    function_close_curtain s =
      { s with
        is_open := false
        STEPPER_PORT := 0x04
        lcd := lcd_write s.lcd 0 13 "OFF".toList
        lcd_cursor := (0, 16)
        trace := s.trace ++ ([Event.serial_send_string "\rClosing...\r"] ++
          phase_events open_profile.reverse ++
          [Event.lq_setCursor 0 13, Event.lq_print "OFF".toList,
            Event.serial_send_string "\rDone.\r"]) } := by
  unfold function_close_curtain
  simp only [h, if_true, rotate_stepper_eq, rotate_stepper_three_quarter_eq,
    apply_phases_append]
  have hp : repeat_phases (cycle_phases [0x04, 0x02, 0x08] CCW) (1 : Int).toNat ++
      repeat_phases (cycle_phases [0x04, 0x02, 0x08, 0x01] CCW) (9 : Int).toNat =
        open_profile.reverse := by
    decide
  rw [hp]
  have hl : open_profile.reverse.getLast? = some 0x04 := by decide
  simp [apply_phases, serial_send_string, emit, lq_setCursor, lq_print, hl]

/-- The branch of `function_close_curtain` taken when the curtain is closed. -/
theorem function_close_curtain_closed (s : State) (h : s.is_open = false) :
    function_close_curtain s =
      { s with trace := s.trace ++
          [Event.serial_send_string "\rThe curtain is already close!\r"] } := by
  unfold function_close_curtain
  simp only [h, Bool.false_eq_true, if_false, serial_send_string, emit]

theorem serve_request_is_open (r : Request) (s : State) :
    (serve_request r s).is_open = (if r = Request.open_curtain then true else false) := by
  cases r <;> cases h : s.is_open <;>
    simp [serve_request, function_open_curtain_closed, function_open_curtain_open,
      function_close_curtain_open, function_close_curtain_closed, h]

theorem serve_request_indicator (r : Request) (s : State) (h : indicator_ok s) :
    indicator_ok (serve_request r s) := by
  unfold indicator_ok at h ⊢
  cases r <;> cases ho : s.is_open <;>
    simp [serve_request, function_open_curtain_closed, function_open_curtain_open,
      function_close_curtain_open, function_close_curtain_closed, ho, lcd_read3, lcd_write] <;>
    simpa [ho, lcd_read3] using h

theorem run_requests_indicator (rs : List Request) (s : State) (h : indicator_ok s) :
    indicator_ok (run_requests rs s) := by
  induction rs generalizing s with
  | nil => exact h
  | cons r rs ih => exact ih _ (serve_request_indicator r s h)

theorem count_changing_balance (rs : List Request) (s : State) :
    count_changing Request.open_curtain rs s + (if s.is_open then 1 else 0) =
      count_changing Request.close_curtain rs s +
        (if (run_requests rs s).is_open then 1 else 0) := by
  induction rs generalizing s with
  | nil => simp [count_changing, run_requests]
  | cons r rs ih =>
    have h := ih (serve_request r s)
    have hr := serve_request_is_open r s
    simp only [count_changing, run_requests]
    cases r <;> cases ho : s.is_open <;> simp [hr, ho] at h ⊢ <;> omega

/-- C5. Curtain state.  From any state with the curtain closed and the
indicator showing `OFF` (the power-on state is one), after every finite sequence
of open and close requests: the curtain is open if and only if the number of
state-changing open calls exceeds the number of state-changing close calls by
exactly one; when it is closed the two numbers are equal; and after every
request the indicator at row 0, column 13 shows `ON ` when `is_open` is true and
`OFF` when it is false. -/
theorem curtain_state (rs : List Request) (s : State) (hc : s.is_open = false)
    (hi : lcd_read3 s 0 13 = "OFF".toList) :
    ((run_requests rs s).is_open = true ↔
      count_changing Request.open_curtain rs s =
        count_changing Request.close_curtain rs s + 1) ∧
    ((run_requests rs s).is_open = false →
      count_changing Request.open_curtain rs s =
        count_changing Request.close_curtain rs s) ∧
    (∀ n, lcd_read3 (run_requests (rs.take n) s) 0 13 =
      if (run_requests (rs.take n) s).is_open then "ON ".toList else "OFF".toList) := by
  have hb := count_changing_balance rs s
  rw [hc] at hb
  have h0 : indicator_ok s := by
    unfold indicator_ok
    rw [hc, hi]
    rfl
  refine ⟨?_, ?_, fun n => run_requests_indicator (rs.take n) s h0⟩
  · cases hf : (run_requests rs s).is_open <;> simp [hf] at hb ⊢ <;> omega
  · intro hf
    simp [hf] at hb
    exact hb

/-- Witness for C5 at power-on with the requests open, open, close, open. -/
theorem curtain_state_witness :
    boot.is_open = false ∧ lcd_read3 boot 0 13 = "OFF".toList ∧
    ((run_requests [Request.open_curtain, Request.open_curtain, Request.close_curtain,
        Request.open_curtain] boot).is_open = true ↔
      count_changing Request.open_curtain [Request.open_curtain, Request.open_curtain,
        Request.close_curtain, Request.open_curtain] boot =
      count_changing Request.close_curtain [Request.open_curtain, Request.open_curtain,
        Request.close_curtain, Request.open_curtain] boot + 1) :=
  ⟨rfl, by decide,
    (curtain_state [Request.open_curtain, Request.open_curtain, Request.close_curtain,
      Request.open_curtain] boot rfl (by decide)).1⟩

theorem new_events_self_append (s : State) (evs : List Event) (r : State)
    (h : r.trace = s.trace ++ evs) : stepper_writes (new_events s r) = stepper_writes evs := by
  rw [new_events_append s r evs h]

theorem stepper_writes_bracket (ps : List Nat) (a d : String) (r c : Nat) (t : List Char) :
    stepper_writes ([Event.serial_send_string a] ++ phase_events ps ++
      [Event.lq_setCursor r c, Event.lq_print t, Event.serial_send_string d]) = ps := by
  simp [stepper_writes_append, stepper_writes_phase_events, stepper_writes]

theorem open_profile_writes (s : State) (hc : s.is_open = false) :
    stepper_writes (new_events s (function_open_curtain s)) = open_profile := by
  rw [new_events_self_append s _ _ (by rw [function_open_curtain_closed s hc])]
  exact stepper_writes_bracket _ _ _ _ _ _

/-- C6. Idempotence of open.  Of two consecutive executions of
`function_open_curtain`, started with the curtain closed, the stepper receives
the opening profile exactly once in total; and from every state the second
execution writes no motor phase, leaves `is_open`, the stepper port and the
display as the first left them, and emits only the text
`The curtain is already open!`. -/
theorem open_idempotent (s : State) :
    (s.is_open = false →
      stepper_writes (new_events s (function_open_curtain (function_open_curtain s))) =
        open_profile) ∧
    new_events (function_open_curtain s) (function_open_curtain (function_open_curtain s)) =
      [Event.serial_send_string "\rThe curtain is already open!\r"] ∧
    stepper_writes (new_events (function_open_curtain s)
      (function_open_curtain (function_open_curtain s))) = [] ∧
    (function_open_curtain (function_open_curtain s)).is_open =
      (function_open_curtain s).is_open ∧
    (function_open_curtain (function_open_curtain s)).lcd = (function_open_curtain s).lcd ∧
    (function_open_curtain (function_open_curtain s)).STEPPER_PORT =
      (function_open_curtain s).STEPPER_PORT := by
  have h1 : (function_open_curtain s).is_open = true := by
    cases h : s.is_open
    · rw [function_open_curtain_closed s h]
    · rw [function_open_curtain_open s h]
      exact h
  have h2 := function_open_curtain_open (function_open_curtain s) h1
  have hnew : new_events (function_open_curtain s)
      (function_open_curtain (function_open_curtain s)) =
        [Event.serial_send_string "\rThe curtain is already open!\r"] :=
    new_events_append _ _ _ (by rw [h2])
  refine ⟨?_, hnew, ?_, ?_, ?_, ?_⟩
  · intro hc
    rw [h2, function_open_curtain_closed s hc]
    rw [new_events_self_append s
      (([Event.serial_send_string "\rOpening...\r"] ++ phase_events open_profile ++
        [Event.lq_setCursor 0 13, Event.lq_print "ON ".toList,
          Event.serial_send_string "\rDone.\r"]) ++
        [Event.serial_send_string "\rThe curtain is already open!\r"]) _
      (by simp only [List.append_assoc])]
    rw [stepper_writes_append, stepper_writes_bracket]
    rfl
  · rw [hnew]
    rfl
  · rw [h2]
  · rw [h2]
  · rw [h2]

/-- Witness for C6 at power-on, where the curtain is closed. -/
theorem open_idempotent_witness :
    boot.is_open = false ∧
    stepper_writes (new_events boot (function_open_curtain (function_open_curtain boot))) =
      open_profile :=
  ⟨rfl, (open_idempotent boot).1 rfl⟩

/-- C7. Open profile.  With the curtain closed, `function_open_curtain` emits
`Opening...`, then writes the 39 phases of nine full cycles `04 02 08 01` and one
partial cycle `04 02 08` to the stepper port, each write followed by one delay of
50 ms, then sets the cursor to row 0, column 13 and prints `ON `, emits `Done.`
and leaves `is_open = true` with the indicator showing `ON `. -/
theorem open_profile_trace (s : State) (hc : s.is_open = false) :
    new_events s (function_open_curtain s) =
      [Event.serial_send_string "\rOpening...\r"] ++ phase_events open_profile ++
        [Event.lq_setCursor 0 13, Event.lq_print "ON ".toList,
          Event.serial_send_string "\rDone.\r"] ∧
    stepper_writes (new_events s (function_open_curtain s)) =
      [4, 2, 8, 1, 4, 2, 8, 1, 4, 2, 8, 1, 4, 2, 8, 1, 4, 2, 8, 1, 4, 2, 8, 1,
        4, 2, 8, 1, 4, 2, 8, 1, 4, 2, 8, 1, 4, 2, 8] ∧
    (stepper_writes (new_events s (function_open_curtain s))).length = 39 ∧
    (function_open_curtain s).is_open = true ∧
    lcd_read3 (function_open_curtain s) 0 13 = "ON ".toList := by
  have hnew : new_events s (function_open_curtain s) =
      [Event.serial_send_string "\rOpening...\r"] ++ phase_events open_profile ++
        [Event.lq_setCursor 0 13, Event.lq_print "ON ".toList,
          Event.serial_send_string "\rDone.\r"] :=
    new_events_append _ _ _ (by rw [function_open_curtain_closed s hc])
  have hw : stepper_writes (new_events s (function_open_curtain s)) = open_profile := by
    rw [hnew]
    exact stepper_writes_bracket _ _ _ _ _ _
  refine ⟨hnew, ?_, ?_, ?_, ?_⟩
  · rw [hw]; decide
  · rw [hw]; decide
  · rw [function_open_curtain_closed s hc]
  · rw [function_open_curtain_closed s hc]
    simp [lcd_read3, lcd_write]

/-- Witness for C7 at power-on. -/
theorem open_profile_trace_witness :
    boot.is_open = false ∧
    (stepper_writes (new_events boot (function_open_curtain boot))).length = 39 ∧
    (function_open_curtain boot).is_open = true :=
  ⟨rfl, (open_profile_trace boot rfl).2.2.1, (open_profile_trace boot rfl).2.2.2.1⟩

/-- C8. Close is the mirror image of open.  With the curtain open,
`function_close_curtain` writes one partial cycle `08 02 04` and then nine full
cycles `01 08 02 04`; this is the reverse of what `function_open_curtain` writes
with the curtain closed; and for every step count, `rotate_stepper` and
`rotate_stepper_three_quarter` write with `CCW` the reverse of what they write
with `CW`. -/
theorem close_reverses_open (s1 s2 : State) (ho : s1.is_open = true)
    (hc : s2.is_open = false) :
    stepper_writes (new_events s1 (function_close_curtain s1)) =
      [0x08, 0x02, 0x04] ++ repeat_phases [0x01, 0x08, 0x02, 0x04] 9 ∧
    stepper_writes (new_events s1 (function_close_curtain s1)) =
      (stepper_writes (new_events s2 (function_open_curtain s2))).reverse ∧
    (∀ (n : Int) (x : State),
      stepper_writes (new_events x (rotate_stepper n CCW x)) =
        (stepper_writes (new_events x (rotate_stepper n CW x))).reverse) ∧
    (∀ (n : Int) (x : State),
      stepper_writes (new_events x (rotate_stepper_three_quarter n CCW x)) =
        (stepper_writes (new_events x (rotate_stepper_three_quarter n CW x))).reverse) := by
  have hclose : stepper_writes (new_events s1 (function_close_curtain s1)) =
      open_profile.reverse := by
    rw [new_events_self_append s1 _ _
      (by rw [function_close_curtain_open s1 ho])]
    exact stepper_writes_bracket _ _ _ _ _ _
  have hopen : stepper_writes (new_events s2 (function_open_curtain s2)) = open_profile :=
    (open_profile_writes s2 hc)
  have hrot : ∀ (seq : List Nat) (d : Int) (k : Nat) (x : State),
      stepper_writes (new_events x (apply_phases (repeat_phases (cycle_phases seq d) k) x)) =
        repeat_phases (cycle_phases seq d) k := by
    intro seq d k x
    rw [new_events_self_append x (phase_events (repeat_phases (cycle_phases seq d) k)) _ rfl,
      stepper_writes_phase_events]
  have hcyc : ∀ seq : List Nat, cycle_phases seq CCW = (cycle_phases seq CW).reverse := by
    intro seq
    simp [cycle_phases, CW, CCW]
  refine ⟨?_, ?_, ?_, ?_⟩
  · rw [hclose]; decide
  · rw [hclose, hopen]
  · intro n x
    rw [rotate_stepper_eq, rotate_stepper_eq, hrot, hrot, hcyc, repeat_phases_reverse]
  · intro n x
    rw [rotate_stepper_three_quarter_eq, rotate_stepper_three_quarter_eq, hrot, hrot, hcyc,
      repeat_phases_reverse]

/-- Witness for C8: the curtain opened at power-on, then closed. -/
theorem close_reverses_open_witness :
    (function_open_curtain boot).is_open = true ∧ boot.is_open = false ∧
    stepper_writes (new_events (function_open_curtain boot)
        (function_close_curtain (function_open_curtain boot))) =
      (stepper_writes (new_events boot (function_open_curtain boot))).reverse :=
  ⟨by rfl, rfl,
    (close_reverses_open (function_open_curtain boot) boot (by rfl) rfl).2.1⟩

/-! ## Lamp duty -/

theorem duty_compare_in_range (d : Int) (h0 : 0 ≤ d) (h1 : d ≤ 100) :
    wrap16 (255 * d) = 255 * d ∧ duty_compare d = 255 * d / 100 := by
  have hw : wrap16 (255 * d) = 255 * d := by
    unfold wrap16
    omega
  refine ⟨hw, ?_⟩
  unfold duty_compare
  rw [hw, Int.tdiv_eq_ediv (by omega) (by omega)]

theorem set_duty_cycle_eq (d : Int) (s : State) :
    set_duty_cycle d s =
      { s with OCR0 := wrap8 (duty_compare d),
               trace := s.trace ++ [Event.ocr0 (wrap8 (duty_compare d))] } := rfl

theorem wrap8_duty_compare (d : Int) (h0 : 0 ≤ d) (h1 : d ≤ 100) :
    wrap8 (duty_compare d) = 255 * d.toNat / 100 := by
  rw [(duty_compare_in_range d h0 h1).2]
  unfold wrap8
  obtain ⟨n, rfl⟩ := Int.eq_ofNat_of_zero_le h0
  have hn : n ≤ 100 := by omega
  have hq : (255 * (n : Int) / 100) % 256 = ((255 * n / 100 : Nat) : Int) := by
    have h2 : (255 * (n : Int) / 100) = ((255 * n / 100 : Nat) : Int) := by
      push_cast
      rfl
    rw [h2]
    omega
  rw [hq, Int.toNat_ofNat, Int.toNat_ofNat]

/-- C9. Duty mapping.  For every duty `d` with `0 ≤ d ≤ 100`: the product
`255 * d` lies in the range of the 16-bit `int`, `set_duty_cycle d` writes the
compare register with the floor of `d * 255 / 100`, this value is at most 255
(the 8-bit register holds it unchanged), and the mapping is monotone on
`[0, 100]`; duty 0 gives 0, duty 50 gives 127 and duty 100 gives 255. -/
theorem duty_mapping (d : Int) (s : State) (h0 : 0 ≤ d) (h1 : d ≤ 100) :
    (-32768 ≤ 255 * d ∧ 255 * d ≤ 32767 ∧ wrap16 (255 * d) = 255 * d) ∧
    (set_duty_cycle d s).OCR0 = 255 * d.toNat / 100 ∧
    ((set_duty_cycle d s).OCR0 : Int) = 255 * d / 100 ∧
    (duty_compare d = 255 * d / 100 ∧ 0 ≤ duty_compare d ∧ duty_compare d ≤ 255) ∧
    (set_duty_cycle d s).OCR0 ≤ 255 ∧
    (set_duty_cycle d s).trace = s.trace ++ [Event.ocr0 (255 * d.toNat / 100)] ∧
    (∀ d2 : Int, d ≤ d2 → d2 ≤ 100 →
      (set_duty_cycle d s).OCR0 ≤ (set_duty_cycle d2 s).OCR0) ∧
    (set_duty_cycle 0 s).OCR0 = 0 ∧
    (set_duty_cycle 50 s).OCR0 = 127 ∧
    (set_duty_cycle 100 s).OCR0 = 255 := by
  have hr := duty_compare_in_range d h0 h1
  have hv := wrap8_duty_compare d h0 h1
  simp only [set_duty_cycle_eq, hv]
  refine ⟨⟨by omega, by omega, hr.1⟩, trivial, by omega, ⟨hr.2, ?_, ?_⟩, by omega, trivial, ?_,
    by decide, by decide, by decide⟩
  · rw [hr.2]; omega
  · rw [hr.2]; omega
  · intro d2 hd hd2
    rw [wrap8_duty_compare d2 (by omega) hd2]
    omega

/-- Witness for C9 at duty 75. -/
theorem duty_mapping_witness :
    (0 : Int) ≤ 75 ∧ (75 : Int) ≤ 100 ∧ (set_duty_cycle 75 boot).OCR0 = 255 * 75 / 100 ∧
    (set_duty_cycle 75 boot).OCR0 = 191 :=
  ⟨by decide, by decide, (duty_mapping 75 boot (by decide) (by decide)).2.1,
    (duty_mapping 75 boot (by decide) (by decide)).2.1⟩

/-! ## Lamp range -/

/-- The set-lamp executor, as one state update: whatever `atoi` returns goes
through `set_duty_cycle` and is printed. -/
theorem function_set_lamp_eq (s : State) :
    function_set_lamp s =
      { s with
        OCR0 := wrap8 (duty_compare (atoi s.cmd_first_value))
        lcd := lcd_write s.lcd 1 12 (fmt_3d (atoi s.cmd_first_value) ++ ['%'])
        lcd_cursor := (1, 12 + (fmt_3d (atoi s.cmd_first_value) ++ ['%']).length)
        trace := s.trace ++
          [Event.ocr0 (wrap8 (duty_compare (atoi s.cmd_first_value))),
            Event.lq_setCursor 1 12,
            Event.lq_print (fmt_3d (atoi s.cmd_first_value) ++ ['%']),
            Event.serial_send_string "\rDone.\r"] } := by
  simp [function_set_lamp, set_duty_cycle_eq, lq_setCursor, lq_print, serial_send_string, emit]

/-- C10, as stated, fails.  With the value token `101` the executor writes the
compare register (with 1, the low byte of 257), prints `101%` and emits `Done.`;
with `-1` it writes 254 and prints ` -1%`.  No range error is reported and the
register does not keep its previous value 127. -/
theorem set_lamp_out_of_range :
    boot.OCR0 = 127 ∧
    new_events boot (function_set_lamp { boot with cmd_first_value := "101".toList }) =
      [Event.ocr0 1, Event.lq_setCursor 1 12, Event.lq_print "101%".toList,
        Event.serial_send_string "\rDone.\r"] ∧
    (function_set_lamp { boot with cmd_first_value := "101".toList }).OCR0 = 1 ∧
    new_events boot (function_set_lamp { boot with cmd_first_value := "-1".toList }) =
      [Event.ocr0 254, Event.lq_setCursor 1 12, Event.lq_print " -1%".toList,
        Event.serial_send_string "\rDone.\r"] ∧
    (function_set_lamp { boot with cmd_first_value := "-1".toList }).OCR0 = 254 := by
  refine ⟨by rfl, by decide, by rfl, by decide, by rfl⟩

/-- C10, amended.  The set-lamp executor has no range check: for every value
token, in range or not, it writes the compare register with the low 8 bits of
`255 * d / 100` computed in 16-bit `int`, where `d` is what `atoi` returns, then
sets the cursor to row 1, column 12, prints `d` in width 3 followed by a percent
sign and emits `Done.`; it emits nothing else. -/
theorem set_lamp_always_writes (s : State) :
    (function_set_lamp s).OCR0 = wrap8 (duty_compare (atoi s.cmd_first_value)) ∧
    new_events s (function_set_lamp s) =
      [Event.ocr0 (wrap8 (duty_compare (atoi s.cmd_first_value))),
        Event.lq_setCursor 1 12,
        Event.lq_print (fmt_3d (atoi s.cmd_first_value) ++ ['%']),
        Event.serial_send_string "\rDone.\r"] := by
  refine ⟨by rw [function_set_lamp_eq], ?_⟩
  exact new_events_append _ _ _ (by rw [function_set_lamp_eq])

/-! ## Set-lamp scenario -/

/-- C11. Set-lamp scenario, evaluated where the stack region of `rec` is not
retained.  After a login the twelve handler calls for `set lamp 75` and carriage
return each enter with `rec` holding the letter x everywhere: the completed line
is read as eleven letters x, the answer is `Error!`, `set_lamp` is never
set, and the following pass of the main loop leaves the compare register at 127
and prints nothing. -/
theorem set_lamp_scenario_stack_not_retained :
    logged_in.login = true ∧ logged_in.cmd_index = 0 ∧ logged_in.OCR0 = 127 ∧
    (feed_frames ("set lamp 75\r".toList.map (fun c => (c, stack_x))) logged_in).set_lamp
      = false ∧
    (feed_frames ("set lamp 75\r".toList.map (fun c => (c, stack_x))) logged_in).trace.getLast?
      = some (Event.serial_send_string "\rError!\r") ∧
    (main_loop quiet_env
      (feed_frames ("set lamp 75\r".toList.map (fun c => (c, stack_x))) logged_in)).OCR0
      = 127 ∧
    new_events (feed_frames ("set lamp 75\r".toList.map (fun c => (c, stack_x))) logged_in)
      (main_loop quiet_env
        (feed_frames ("set lamp 75\r".toList.map (fun c => (c, stack_x))) logged_in)) = [] := by
  refine ⟨by rfl, by rfl, by rfl, by rfl, by rfl, by rfl, ?_⟩
  unfold new_events
  decide

/-- The set-lamp scenario when the stack region of `rec` is retained between the
handler calls: after a login, `set lamp 75` and carriage return followed by one
pass of the main loop set the compare register to 191, write ` 75%` at row 1,
column 12, emit `Done.` and leave `set_lamp` false. -/
theorem set_lamp_scenario_retained :
    (feed_retained "set lamp 75\r".toList stack_x logged_in).1.set_lamp = true ∧
    (main_loop quiet_env (feed_retained "set lamp 75\r".toList stack_x logged_in).1).OCR0
      = 191 ∧
    new_events (feed_retained "set lamp 75\r".toList stack_x logged_in).1
      (main_loop quiet_env (feed_retained "set lamp 75\r".toList stack_x logged_in).1) =
      [Event.ocr0 191, Event.lq_setCursor 1 12, Event.lq_print " 75%".toList,
        Event.serial_send_string "\rDone.\r"] ∧
    [(main_loop quiet_env (feed_retained "set lamp 75\r".toList stack_x logged_in).1).lcd 1 12,
      (main_loop quiet_env (feed_retained "set lamp 75\r".toList stack_x logged_in).1).lcd 1 13,
      (main_loop quiet_env (feed_retained "set lamp 75\r".toList stack_x logged_in).1).lcd 1 14,
      (main_loop quiet_env (feed_retained "set lamp 75\r".toList stack_x logged_in).1).lcd 1 15]
      = " 75%".toList ∧
    (main_loop quiet_env (feed_retained "set lamp 75\r".toList stack_x logged_in).1).set_lamp
      = false := by
  refine ⟨by rfl, by rfl, ?_, by decide, by rfl⟩
  unfold new_events
  decide

theorem atoi_dec (d : Nat) (h : d ≤ 100) : atoi (dec d) = (d : Int) := by
  interval_cases d <;> rfl

/-- For every duty `d` from 0 to 100 given as its decimal text, the set-lamp
executor writes the floor of `255 * d / 100` to the compare register and prints
`d` right-justified in width 3 followed by a percent sign: four characters. -/
theorem set_lamp_text (d : Nat) (s : State) (h : d ≤ 100) (hv : s.cmd_first_value = dec d) :
    (function_set_lamp s).OCR0 = 255 * d / 100 ∧
    new_events s (function_set_lamp s) =
      [Event.ocr0 (255 * d / 100), Event.lq_setCursor 1 12,
        Event.lq_print (List.replicate (3 - (dec d).length) ' ' ++ dec d ++ ['%']),
        Event.serial_send_string "\rDone.\r"] ∧
    (List.replicate (3 - (dec d).length) ' ' ++ dec d ++ ['%']).length = 4 := by
  have ha : atoi s.cmd_first_value = (d : Int) := by rw [hv]; exact atoi_dec d h
  have hw : wrap8 (duty_compare (d : Int)) = 255 * d / 100 := by
    have := wrap8_duty_compare (d : Int) (by omega) (by omega)
    simpa using this
  have hf : fmt_3d (d : Int) = List.replicate (3 - (dec d).length) ' ' ++ dec d := by
    have hn : ¬ ((d : Int) < 0) := by omega
    simp [fmt_3d, fmt_d, hn]
  refine ⟨?_, ?_, ?_⟩
  · rw [function_set_lamp_eq, ha, hw]
  · refine new_events_append _ _ _ ?_
    rw [function_set_lamp_eq, ha, hw, hf]
  · interval_cases d <;> rfl

/-- The set-lamp text for duty 75: `set_lamp_text` at a concrete state. -/
theorem set_lamp_text_witness :
    (function_set_lamp { boot with cmd_first_value := "75".toList }).OCR0 = 255 * 75 / 100 :=
  (set_lamp_text 75 { boot with cmd_first_value := "75".toList } (by decide) rfl).1

/-! ## Set time -/

theorem fmt_02d_two_digits (n : Nat) (h : n ≤ 99) :
    fmt_02d (n : Int) = [Char.ofNat (48 + n / 10), Char.ofNat (48 + n % 10)] := by
  interval_cases n <;> rfl

theorem digit_char_facts (k : Nat) (h : k ≤ 9) :
    isdigit (Char.ofNat (48 + k)) = true ∧ isspace (Char.ofNat (48 + k)) = false ∧
    Char.ofNat (48 + k) ≠ '-' ∧ Char.ofNat (48 + k) ≠ '+' ∧
    (Char.ofNat (48 + k)).toNat - '0'.toNat = k := by
  interval_cases k <;> decide

theorem takeWhile_isdigit_stop (rest : List Char)
    (hrest : ∀ c cs, rest = c :: cs → isdigit c = false) :
    rest.takeWhile isdigit = [] ∧ rest.dropWhile isdigit = rest := by
  cases rest with
  | nil => exact ⟨rfl, rfl⟩
  | cons c cs =>
    have hc := hrest c cs rfl
    simp [List.takeWhile_cons, List.dropWhile_cons, hc]

theorem scan_d_digit_pair (d1 d2 : Char) (a b : Nat) (rest : List Char)
    (h1 : isdigit d1 = true) (h2 : isdigit d2 = true) (hs : isspace d1 = false)
    (hm : d1 ≠ '-') (hp : d1 ≠ '+')
    (ha : d1.toNat - '0'.toNat = a) (hb : d2.toNat - '0'.toNat = b)
    (hab : a * 10 + b ≤ 99)
    (hrest : ∀ c cs, rest = c :: cs → isdigit c = false) :
    scan_d (d1 :: d2 :: rest) = some (((a * 10 + b : Nat) : Int), rest) := by
  obtain ⟨ht, hd⟩ := takeWhile_isdigit_stop rest hrest
  have hr : (d1 :: d2 :: rest).dropWhile isspace = d1 :: d2 :: rest := by
    simp [List.dropWhile_cons, hs]
  have hsign : scan_sign (d1 :: d2 :: rest) = (false, d1 :: d2 :: rest) := by
    unfold scan_sign
    split
    · rename_i heq
      simp only [List.cons.injEq] at heq
      exact absurd heq.1 hm
    · rename_i heq
      simp only [List.cons.injEq] at heq
      exact absurd heq.1 hp
    · rfl
  have ha2 : d1.toNat - 48 = a := ha
  have hb2 : d2.toNat - 48 = b := hb
  unfold scan_d
  simp [hr, hsign, List.takeWhile_cons, List.dropWhile_cons, h1, h2, ht, hd, digits_value, ha2,
    hb2]
  unfold wrap16
  omega

theorem scan_d_two_digits (n : Nat) (h : n ≤ 99) (rest : List Char)
    (hrest : ∀ c cs, rest = c :: cs → isdigit c = false) :
    scan_d (fmt_02d (n : Int) ++ rest) = some ((n : Int), rest) := by
  have f1 := digit_char_facts (n / 10) (by omega)
  have f2 := digit_char_facts (n % 10) (by omega)
  rw [fmt_02d_two_digits n h]
  have := scan_d_digit_pair (Char.ofNat (48 + n / 10)) (Char.ofNat (48 + n % 10)) (n / 10)
    (n % 10) rest f1.1 f2.1 f1.2.1 f1.2.2.1 f1.2.2.2.1 f1.2.2.2.2 f2.2.2.2.2 (by omega) hrest
  have hn : n / 10 * 10 + n % 10 = n := by omega
  rw [hn] at this
  exact this

theorem scan_lit_head (sep : Char) (rest : List Char) :
    scan_lit sep (sep :: rest) = some rest := by
  simp [scan_lit]

theorem sscanf_3d_tokens (sep : Char) (hsep : isdigit sep = false) (a b c : Nat)
    (ha : a ≤ 99) (hb : b ≤ 99) (hc : c ≤ 99) (entry : Int × Int × Int) :
    sscanf_3d sep (fmt_02d a ++ [sep] ++ fmt_02d b ++ [sep] ++ fmt_02d c) entry =
      ((a : Int), (b : Int), (c : Int)) := by
  have e : fmt_02d (a : Int) ++ [sep] ++ fmt_02d (b : Int) ++ [sep] ++ fmt_02d (c : Int) =
      fmt_02d (a : Int) ++ (sep :: (fmt_02d (b : Int) ++ (sep :: (fmt_02d (c : Int) ++ [])))) := by
    simp
  have stop : ∀ (l : List Char) (x : Char) (xs : List Char),
      sep :: l = x :: xs → isdigit x = false := by
    intro l x xs h
    simp only [List.cons.injEq] at h
    rw [← h.1]
    exact hsep
  have s1 := scan_d_two_digits a ha (sep :: (fmt_02d (b : Int) ++ (sep :: (fmt_02d (c : Int) ++ []))))
    (stop _)
  have s2 := scan_d_two_digits b hb (sep :: (fmt_02d (c : Int) ++ [])) (stop _)
  have s3 := scan_d_two_digits c hc [] (by intro x xs h; cases h)
  rw [e]
  unfold sscanf_3d
  simp only [s1, scan_lit_head, s2, s3]

theorem set_date_and_time_tokens (h mi se mo dd yy : Nat)
    (hh : h ≤ 99) (hmi : mi ≤ 99) (hse : se ≤ 99) (hmo : mo ≤ 99) (hdd : dd ≤ 99)
    (hyy : yy ≤ 99) (j k : Int × Int × Int) (s : State) :
    (set_date_and_time (time_token h mi se) (date_token mo dd yy) j k s) =
      { s with t := ⟨se, mi, h, Sunday, dd, mo, 2000 + yy⟩ } := by
  have hw : wrap16 ((yy : Int) + 2000) = 2000 + (yy : Int) := by
    unfold wrap16
    omega
  unfold set_date_and_time time_token date_token
  rw [sscanf_3d_tokens ':' (by decide) h mi se hh hmi hse,
    sscanf_3d_tokens '/' (by decide) mo dd yy hmo hdd hyy]
  simp only [hw]

/-- The block `show_clock` as one state update. -/
theorem show_clock_eq (s : State) :
    show_clock s =
      { s with
        lcd := lcd_write (lcd_write s.lcd 0 0 (time_text s.t)) 1 0 (date_text s.t)
        lcd_cursor := (1, 0 + (date_text s.t).length)
        trace := s.trace ++ [Event.lq_setCursor 0 0, Event.lq_print (time_text s.t),
          Event.lq_setCursor 1 0, Event.lq_print (date_text s.t)] } := by
  simp [show_clock, lq_setCursor, lq_print, emit, time_text, date_text]

theorem lcd_write_cell (lcd : Nat → Nat → Char) (row col : Nat) (text : List Char)
    (r k : Nat) :
    lcd_write lcd row col text r k =
      if r = row ∧ col ≤ k ∧ k < col + text.length then text.getD (k - col) ' '
      else lcd r k := by
  induction text generalizing lcd col with
  | nil =>
    have hno : ¬ (r = row ∧ col ≤ k ∧ k < col + ([] : List Char).length) := by
      simp only [List.length_nil]; omega
    rw [lcd_write, if_neg hno]
  | cons c cs ih =>
    rw [lcd_write, ih]
    by_cases h1 : r = row ∧ col + 1 ≤ k ∧ k < col + 1 + cs.length
    · have h2 : r = row ∧ col ≤ k ∧ k < col + (c :: cs).length := by
        simp only [List.length_cons]; omega
      rw [if_pos h1, if_pos h2]
      have hk : k - col = (k - (col + 1)) + 1 := by omega
      rw [hk, List.getD_cons_succ]
    · rw [if_neg h1]
      by_cases h3 : r = row ∧ k = col
      · have h2 : r = row ∧ col ≤ k ∧ k < col + (c :: cs).length := by
          simp only [List.length_cons]; omega
        rw [if_pos h3, if_pos h2, h3.2]
        simp
      · have h2 : ¬ (r = row ∧ col ≤ k ∧ k < col + (c :: cs).length) := by
          simp only [List.length_cons]; omega
        rw [if_neg h3, if_neg h2]

theorem lcd_write_same (lcd : Nat → Nat → Char) (row col : Nat) (text : List Char)
    (k : Nat) (hk : k < text.length) :
    lcd_write lcd row col text row (col + k) = text.getD k ' ' := by
  rw [lcd_write_cell, if_pos ⟨rfl, by omega, by omega⟩]
  simp

theorem lcd_write_other_row (lcd : Nat → Nat → Char) (row col : Nat) (text : List Char)
    (r k : Nat) (h : r ≠ row) : lcd_write lcd row col text r k = lcd r k := by
  rw [lcd_write_cell, if_neg (fun c => h c.1)]

theorem lcd_read_written (s : State) (row col : Nat)
    (text : List Char) (h : ∀ k, k < text.length → s.lcd row (col + k) = text.getD k ' ') :
    lcd_read s row col text.length = text := by
  unfold lcd_read
  apply List.ext_getElem
  · simp
  · intro n h1 h2
    simp only [List.getElem_map, List.getElem_range]
    rw [h n h2]
    simp [List.getD_eq_getElem, h2]

/-- The four display events of the clock block for the clock value `t`. -/
theorem show_clock_trace (s : State) :
    (show_clock s).trace = s.trace ++ [Event.lq_setCursor 0 0, Event.lq_print (time_text s.t),
      Event.lq_setCursor 1 0, Event.lq_print (date_text s.t)] := by
  rw [show_clock_eq]

/-- The set-time executor as one state update. -/
theorem function_set_time_eq (e : Env) (s : State) :
    function_set_time e s =
      (if e.rtc_ok_after_set then
        { s with
          t := e.rtc_after_set
          lcd := lcd_write (lcd_write s.lcd 0 0 (time_text e.rtc_after_set)) 1 0
            (date_text e.rtc_after_set)
          lcd_cursor := (1, 0 + (date_text e.rtc_after_set).length)
          trace := s.trace ++
            [Event.rtc_set (set_date_and_time s.cmd_first_value s.cmd_second_value
                e.junk_time e.junk_date s).t,
              Event.rtc_get, Event.lq_setCursor 0 0,
              Event.lq_print (time_text e.rtc_after_set), Event.lq_setCursor 1 0,
              Event.lq_print (date_text e.rtc_after_set),
              Event.serial_send_string "\rDone.\r"] }
      else
        { s with
          t := e.rtc_after_set
          trace := s.trace ++
            [Event.rtc_set (set_date_and_time s.cmd_first_value s.cmd_second_value
                e.junk_time e.junk_date s).t,
              Event.rtc_get, Event.serial_send_string "\rDone.\r"] }) := by
  unfold function_set_time
  cases hk : e.rtc_ok_after_set
  · simp [RTC_Get, RTC_Set, emit, serial_send_string, set_date_and_time]
  · simp [show_clock_eq, RTC_Get, RTC_Set, emit, serial_send_string, set_date_and_time]

/-- The display refresh as one state update. -/
theorem function_after_one_second_eq (e : Env) (s : State) :
    function_after_one_second e s =
      (if e.rtc_ok_now then
        { s with
          t := e.rtc_now
          lcd := lcd_write (lcd_write s.lcd 0 0 (time_text e.rtc_now)) 1 0 (date_text e.rtc_now)
          lcd_cursor := (1, 0 + (date_text e.rtc_now).length)
          trace := s.trace ++
            [Event.rtc_get, Event.lq_setCursor 0 0, Event.lq_print (time_text e.rtc_now),
              Event.lq_setCursor 1 0, Event.lq_print (date_text e.rtc_now)] }
      else
        { s with t := e.rtc_now, trace := s.trace ++ [Event.rtc_get] }) := by
  unfold function_after_one_second
  cases hk : e.rtc_ok_now
  · simp [RTC_Get, emit]
  · simp [show_clock_eq, RTC_Get, emit]

theorem last_rtc_set_append (tr evs : List Event) :
    last_rtc_set (tr ++ evs) =
      evs.foldl (fun acc e => match e with
        | Event.rtc_set v => some v
        | _ => acc) (last_rtc_set tr) := by
  simp [last_rtc_set, List.foldl_append]

theorem time_token_length (h mi se : Nat) (hh : h ≤ 99) (hmi : mi ≤ 99) (hse : se ≤ 99) :
    (time_token h mi se).length = 8 := by
  simp [time_token, fmt_02d_two_digits, hh, hmi, hse]

theorem fmt_02d_year (yy : Nat) (h : yy ≤ 99) : (fmt_02d (2000 + (yy : Int))).length = 4 := by
  interval_cases yy <;> rfl

theorem date_text_length (mo dd yy : Nat) (hmo : mo ≤ 99) (hdd : dd ≤ 99) (hyy : yy ≤ 99)
    (t : DateTime_t) (hY : t.Year = 2000 + (yy : Int)) (hM : t.Month = mo) (hD : t.Date = dd) :
    (date_text t).length = 10 := by
  simp [date_text, hY, hM, hD, fmt_02d_year yy hyy, fmt_02d_two_digits, hmo, hdd]

/-- C12. Set-time round trip.  For every valid time `HH:MM:SS` and date
`MM/DD/YY` given as the two value tokens, with a clock chip that answers the
fields last set with status OK, `function_set_time` followed by
`function_after_one_second` leaves the clock snapshot holding exactly those
fields (with the fixed weekday and the year counted from 2000), and renders
them: display row 0 shows `HH:MM:SS` and row 1 shows the year, the month and the
day, in that order, separated by strokes. -/
theorem set_time_round_trip (h mi se mo dd yy : Nat) (s : State) (e1 e2 : Env)
    (hh : h ≤ 23) (hmi : mi ≤ 59) (hse : se ≤ 59)
    (hmo : 1 ≤ mo ∧ mo ≤ 12) (hdd : 1 ≤ dd ∧ dd ≤ 31) (hyy : yy ≤ 99)
    (htime : s.cmd_first_value = time_token h mi se)
    (hdate : s.cmd_second_value = date_token mo dd yy)
    (hrtc1 : last_rtc_set (function_set_time e1 s).trace = some e1.rtc_after_set)
    (hok1 : e1.rtc_ok_after_set = true)
    (hrtc2 : last_rtc_set (function_after_one_second e2 (function_set_time e1 s)).trace =
      some e2.rtc_now)
    (hok2 : e2.rtc_ok_now = true) :
    (function_after_one_second e2 (function_set_time e1 s)).t =
      ⟨se, mi, h, Sunday, dd, mo, 2000 + yy⟩ ∧
    lcd_read (function_after_one_second e2 (function_set_time e1 s)) 0 0 8 =
      time_token h mi se ∧
    lcd_read (function_after_one_second e2 (function_set_time e1 s)) 1 0 10 =
      fmt_02d (2000 + (yy : Int)) ++ ['/'] ++ fmt_02d mo ++ ['/'] ++ fmt_02d dd ∧
    new_events (function_set_time e1 s)
        (function_after_one_second e2 (function_set_time e1 s)) =
      [Event.rtc_get, Event.lq_setCursor 0 0, Event.lq_print (time_token h mi se),
        Event.lq_setCursor 1 0,
        Event.lq_print (fmt_02d (2000 + (yy : Int)) ++ ['/'] ++ fmt_02d mo ++ ['/']
          ++ fmt_02d dd)] := by
  have hset := set_date_and_time_tokens h mi se mo dd yy (by omega) (by omega) (by omega)
    (by omega) (by omega) (by omega) e1.junk_time e1.junk_date s
  have ht1 : (set_date_and_time s.cmd_first_value s.cmd_second_value e1.junk_time
      e1.junk_date s).t = ⟨se, mi, h, Sunday, dd, mo, 2000 + yy⟩ := by
    rw [htime, hdate, hset]
  have h1 := function_set_time_eq e1 s
  rw [hok1, if_pos rfl, ht1] at h1
  have ha1 : e1.rtc_after_set = ⟨se, mi, h, Sunday, dd, mo, 2000 + yy⟩ := by
    have := hrtc1
    rw [h1] at this
    simp only [last_rtc_set_append, List.foldl_cons, List.foldl_nil, Option.some.injEq] at this
    exact this.symm
  have h2 := function_after_one_second_eq e2 (function_set_time e1 s)
  rw [hok2, if_pos rfl] at h2
  have ha2 : e2.rtc_now = ⟨se, mi, h, Sunday, dd, mo, 2000 + yy⟩ := by
    have := hrtc2
    rw [h2, h1] at this
    simp only [last_rtc_set_append, List.foldl_cons, List.foldl_nil, Option.some.injEq] at this
    exact this.symm
  have htt : time_text e2.rtc_now = time_token h mi se := by
    rw [ha2]; rfl
  have hdt : date_text e2.rtc_now =
      fmt_02d (2000 + (yy : Int)) ++ ['/'] ++ fmt_02d mo ++ ['/'] ++ fmt_02d dd := by
    rw [ha2]; rfl
  have hl8 := time_token_length h mi se (by omega) (by omega) (by omega)
  have hl10 : (fmt_02d (2000 + (yy : Int)) ++ ['/'] ++ fmt_02d (mo : Int) ++ ['/']
      ++ fmt_02d (dd : Int)).length = 10 := by
    rw [← hdt]
    exact date_text_length mo dd yy (by omega) (by omega) hyy _ (by rw [ha2]) (by rw [ha2])
      (by rw [ha2])
  rw [htt, hdt] at h2
  refine ⟨?_, ?_, ?_, ?_⟩
  · rw [h2, ha2]
  · rw [← hl8]
    apply lcd_read_written
    intro k hk
    rw [h2]
    exact (lcd_write_other_row _ 1 0 _ 0 (0 + k) (by decide)).trans
      (lcd_write_same _ 0 0 _ k hk)
  · rw [← hl10]
    apply lcd_read_written
    intro k hk
    rw [h2]
    exact lcd_write_same _ 1 0 _ k hk
  · exact new_events_append _ _ _ (by rw [h2])

/-- Witness for C12: the command `set time 09:30:55 05/12/25` at power-on, the
clock chip answering what was set. -/
theorem set_time_round_trip_witness :
    lcd_read (function_after_one_second quiet_env (function_set_time quiet_env
      { boot with cmd_first_value := "09:30:55".toList,
                  cmd_second_value := "05/12/25".toList })) 0 0 8 = "09:30:55".toList ∧
    lcd_read (function_after_one_second quiet_env (function_set_time quiet_env
      { boot with cmd_first_value := "09:30:55".toList,
                  cmd_second_value := "05/12/25".toList })) 1 0 10 = "2025/05/12".toList :=
  ⟨(set_time_round_trip 9 30 55 5 12 25
      { boot with cmd_first_value := "09:30:55".toList,
                  cmd_second_value := "05/12/25".toList }
      quiet_env quiet_env (by decide) (by decide) (by decide) (by decide) (by decide)
      (by decide) (by rfl) (by rfl) (by rfl) (by rfl) (by rfl) (by rfl)).2.1,
   (set_time_round_trip 9 30 55 5 12 25
      { boot with cmd_first_value := "09:30:55".toList,
                  cmd_second_value := "05/12/25".toList }
      quiet_env quiet_env (by decide) (by decide) (by decide) (by decide) (by decide)
      (by decide) (by rfl) (by rfl) (by rfl) (by rfl) (by rfl) (by rfl)).2.2.1⟩

/-! ## Set-time format -/

set_option maxRecDepth 100000

/-- C14. Line buffer bound, evaluated on 200 letters without a terminator.
While logged out, after 200 letters the password index is 200, which is `MAX`,
and the next character is stored at offset 200, beyond the 200-byte array; the
same holds for the command index after a login.  Nothing discards the line: the
8-bit index runs on and is back at 0 only after 256 characters. -/
theorem line_index_reaches_max :
    boot.login = false ∧ write_offset boot = 0 ∧
    write_offset (feed_retained (List.replicate 200 'a') stack_x boot).1 = 200 ∧
    (USART_RXC 'b' (feed_retained (List.replicate 200 'a') stack_x boot).2
      (feed_retained (List.replicate 200 'a') stack_x boot).1).2 200 = 'b' ∧
    logged_in.login = true ∧ write_offset logged_in = 0 ∧
    write_offset (feed_retained (List.replicate 200 'a') stack_x logged_in).1 = 200 ∧
    (USART_RXC 'b' (feed_retained (List.replicate 200 'a') stack_x logged_in).2
      (feed_retained (List.replicate 200 'a') stack_x logged_in).1).2 200 = 'b' ∧
    write_offset (feed_retained (List.replicate 255 'a') stack_x boot).1 = 255 ∧
    write_offset (feed_retained (List.replicate 256 'a') stack_x boot).1 = 0 := by
  refine ⟨by rfl, by rfl, by rfl, by rfl, by rfl, by rfl, by rfl, by rfl, by rfl, by rfl⟩

set_option maxRecDepth 512

/-- For lines shorter than `MAX` the bound holds: while logged out, from line
index 0 and with the characters of a line of fewer than `MAX` characters
received so far, the next write goes to an offset below `MAX`. -/
theorem write_offset_short_line (cs : List Char) (stack : Nat → Char) (s : State)
    (hout : s.login = false) (hidx : s.pw_index = 0) (hlen : cs.length < MAX)
    (hterm : ∀ c ∈ cs, is_terminator c = false) :
    write_offset (feed_retained cs stack s).1 = cs.length ∧
    write_offset (feed_retained cs stack s).1 < MAX := by
  have hacc := feed_retained_password_chars cs [] stack s hout (by simpa using hidx)
    (fun j hj => absurd hj (by simp)) (by simp only [List.length_nil, MAX] at *; omega) hterm
  simp only [List.length_nil, Nat.zero_add] at hacc
  have hw : write_offset (feed_retained cs stack s).1 = cs.length := by
    unfold write_offset
    rw [hacc.1]
    exact hacc.2.1
  exact ⟨hw, by rw [hw]; exact hlen⟩

/-- The bound for the four letters `1234` at power-on: `write_offset_short_line`
at a concrete input. -/
theorem write_offset_short_line_witness :
    write_offset (feed_retained "1234".toList stack_x boot).1 = 4 :=
  (write_offset_short_line "1234".toList stack_x boot rfl rfl (by decide) (by decide)).1

/-! ## Tick handler -/

/-- C16, as stated, fails.  The tick that brings the counter from 59 to 60 sets
`after_one_minute` and leaves the counter at 60; while logged out the main loop
does not reset it either, and the next tick makes it 61. -/
theorem tick_does_not_reset :
    (TIMER1_OVF { boot with counter := 59 }).counter = 60 ∧
    (TIMER1_OVF { boot with counter := 59 }).after_one_minute = true ∧
    (main_loop quiet_env (TIMER1_OVF { boot with counter := 59 })).counter = 60 ∧
    (TIMER1_OVF (main_loop quiet_env (TIMER1_OVF { boot with counter := 59 }))).counter
      = 61 := by
  refine ⟨by rfl, by rfl, by rfl, by rfl⟩

/-- C16, amended.  For every state, one timer tick increments the counter by one
(in 16-bit arithmetic) and sets `after_one_second`; when the incremented counter
equals 60 it also sets `after_one_minute`; it never resets the counter, and it
changes nothing else. -/
theorem tick_handler (s : State) :
    TIMER1_OVF s =
      { s with
        counter := wrap16 (s.counter + 1)
        after_one_second := true
        after_one_minute :=
          if wrap16 (s.counter + 1) = 60 then true else s.after_one_minute } ∧
    (0 ≤ s.counter → s.counter < 32767 → (TIMER1_OVF s).counter = s.counter + 1) := by
  constructor
  · unfold TIMER1_OVF
    by_cases h : wrap16 (s.counter + 1) = 60
    · simp [h]
    · simp [h]
  · intro h0 h1
    have hw : wrap16 (s.counter + 1) = s.counter + 1 := by
      unfold wrap16
      omega
    have hv := session_view_TIMER1_OVF s
    simp only [session_view, Prod.mk.injEq] at hv
    rw [hv.2.1, hw]

/-- Witness for the amended C16 at the power-on state. -/
theorem tick_handler_witness :
    (0 : Int) ≤ boot.counter ∧ boot.counter < 32767 ∧
    (TIMER1_OVF boot).counter = boot.counter + 1 :=
  ⟨by decide, by decide, (tick_handler boot).2 (by decide) (by decide)⟩

/-! ## Tokenizer -/

theorem words_acc_space_split (cur a : List Char) (c : Char) (b : List Char)
    (hc : isspace c = true) :
    words_acc cur (a ++ c :: b) = words_acc cur a ++ words_acc [] b := by
  induction a generalizing cur with
  | nil =>
    by_cases hcur : cur = [] <;> simp [words_acc, hc, hcur]
  | cons x xs ih =>
    cases hx : isspace x
    · simp only [List.cons_append, words_acc, hx, Bool.false_eq_true, if_false]
      exact ih (cur ++ [x])
    · by_cases hcur : cur = []
      · simp only [List.cons_append, words_acc, hx, if_true, hcur]
        exact ih []
      · simp only [List.cons_append, words_acc, hx, if_true, hcur, if_false,
          List.cons_append]
        exact congrArg _ (ih [])

theorem words_blank (ws : List Char) (h : is_blank_run ws) : words ws = [] := by
  unfold words
  induction ws with
  | nil => rfl
  | cons c cs ih =>
    have hc : isspace c = true := h c (by simp)
    rw [words_acc, if_pos hc, if_pos rfl]
    exact ih (fun x hx => h x (by simp [hx]))

theorem words_leading (ws l : List Char) (h : is_blank_run ws) :
    words (ws ++ l) = words l := by
  unfold words
  induction ws with
  | nil => rfl
  | cons c cs ih =>
    have hc : isspace c = true := h c (by simp)
    rw [List.cons_append, words_acc, if_pos hc, if_pos rfl]
    exact ih (fun x hx => h x (by simp [hx]))

theorem words_separated (a ws b : List Char) (h : is_blank_run ws) (hne : ws ≠ []) :
    words (a ++ ws ++ b) = words a ++ words b := by
  cases ws with
  | nil => exact absurd rfl hne
  | cons c cs =>
    have hc : isspace c = true := h c (by simp)
    have hcs : is_blank_run cs := fun x hx => h x (by simp [hx])
    have e : a ++ c :: cs ++ b = a ++ c :: (cs ++ b) := by simp
    rw [e]
    unfold words
    rw [words_acc_space_split [] a c (cs ++ b) hc]
    have := words_leading cs b hcs
    unfold words at this
    rw [this]

theorem words_trailing (l ws : List Char) (h : is_blank_run ws) :
    words (l ++ ws) = words l := by
  by_cases hne : ws = []
  · rw [hne, List.append_nil]
  · have := words_separated l ws [] h hne
    rw [List.append_nil] at this
    rw [this]
    have hnil : words [] = [] := rfl
    rw [hnil, List.append_nil]

theorem words_acc_length (cur l : List Char) :
    ∀ w ∈ words_acc cur l, w.length ≤ cur.length + l.length := by
  induction l generalizing cur with
  | nil =>
    intro w hw
    by_cases hcur : cur = []
    · simp [words_acc, hcur] at hw
    · simp [words_acc, hcur] at hw
      rw [hw]
      simp
  | cons c cs ih =>
    intro w hw
    cases hc : isspace c
    · rw [words_acc, if_neg (by simp [hc])] at hw
      have := ih (cur ++ [c]) w hw
      simp only [List.length_append, List.length_singleton, List.length_cons,
        List.length_nil] at this ⊢
      omega
    · rw [words_acc, if_pos hc] at hw
      by_cases hcur : cur = []
      · rw [if_pos hcur] at hw
        have := ih [] w hw
        simp only [List.length_nil, List.length_cons] at this ⊢
        omega
      · rw [if_neg hcur] at hw
        rcases List.mem_cons.mp hw with h1 | h1
        · rw [h1]; omega
        · have := ih [] w h1
          simp only [List.length_nil, List.length_cons] at this ⊢
          omega

theorem nth_word_length (line : List Char) (n : Nat) :
    (nth_word line n).length ≤ line.length := by
  unfold nth_word
  by_cases hn : n < (words line).length
  · rw [List.getD_eq_getElem _ _ hn]
    have := words_acc_length [] line _ (List.getElem_mem hn)
    simpa [words] using this
  · rw [List.getD_eq_default _ _ (by omega)]
    simp

theorem split_string_by_space_tokens (line : List Char) (s : State) :
    tokens (split_string_by_space line s) =
      (nth_word line 0 ++ [' '] ++ nth_word line 1, nth_word line 2, nth_word line 3) := by
  unfold split_string_by_space tokens
  rw [sscanf_4s_words]

theorem nth_word_take (l1 l2 : List Char) (h : (words l1).take 4 = (words l2).take 4)
    (n : Nat) (hn : n < 4) : nth_word l1 n = nth_word l2 n := by
  unfold nth_word
  have e : ∀ l : List (List Char), l.getD n [] = (l.take 4).getD n [] := by
    intro l
    simp [List.getD_eq_getElem?_getD, List.getElem?_take, hn]
  rw [e (words l1), e (words l2), h]

theorem tokens_of_words (l1 l2 : List Char) (s : State)
    (h : (words l1).take 4 = (words l2).take 4) :
    tokens (split_string_by_space l1 s) = tokens (split_string_by_space l2 s) := by
  rw [split_string_by_space_tokens, split_string_by_space_tokens,
    nth_word_take l1 l2 h 0 (by decide), nth_word_take l1 l2 h 1 (by decide),
    nth_word_take l1 l2 h 2 (by decide), nth_word_take l1 l2 h 3 (by decide)]

/-- C15. Tokenizer.  For every completed line of fewer than `MAX` characters,
`split_string_by_space` sets `cmd_key` to the first word, one space and the
second word, `cmd_first_value` to the third word and `cmd_second_value` to the
fourth, an absent word being empty, and each of the four words fits, with its
terminator, the `MAX`-byte array `sscanf` stores it in.  Only the first four
words count; the result does not depend on the previous tokens; leading or
trailing white space and the length of a white-space run between two parts of
the line do not change it. -/
theorem tokenizer (line : List Char) (s : State) (hlen : line.length < MAX) :
    tokens (split_string_by_space line s) =
      (nth_word line 0 ++ [' '] ++ nth_word line 1, nth_word line 2, nth_word line 3) ∧
    (∀ n, fits (nth_word line n) MAX) ∧
    (∀ s2 : State,
      tokens (split_string_by_space line s2) = tokens (split_string_by_space line s)) ∧
    (∀ line2 : List Char, (words line2).take 4 = (words line).take 4 →
      tokens (split_string_by_space line2 s) = tokens (split_string_by_space line s)) ∧
    (∀ ws : List Char, is_blank_run ws →
      tokens (split_string_by_space (ws ++ line) s) = tokens (split_string_by_space line s) ∧
      tokens (split_string_by_space (line ++ ws) s) = tokens (split_string_by_space line s)) ∧
    (∀ a b ws1 ws2 : List Char, line = a ++ ws1 ++ b →
      is_blank_run ws1 → ws1 ≠ [] → is_blank_run ws2 → ws2 ≠ [] →
      tokens (split_string_by_space (a ++ ws2 ++ b) s) =
        tokens (split_string_by_space line s)) := by
  refine ⟨split_string_by_space_tokens line s, ?_, ?_, ?_, ?_, ?_⟩
  · intro n
    have := nth_word_length line n
    unfold fits
    omega
  · intro s2
    rw [split_string_by_space_tokens, split_string_by_space_tokens]
  · intro line2 h
    exact tokens_of_words line2 line s h
  · intro ws hws
    exact ⟨tokens_of_words _ _ s (by rw [words_leading ws line hws]),
      tokens_of_words _ _ s (by rw [words_trailing line ws hws])⟩
  · intro a b ws1 ws2 hl h1 n1 h2 n2
    apply tokens_of_words
    rw [hl, words_separated a ws1 b h1 n1, words_separated a ws2 b h2 n2]

/-- Witness for C15: the line `set lamp 75` gives the key `set lamp` and the
first value `75`. -/
theorem tokenizer_witness :
    "set lamp 75".toList.length < MAX ∧
    tokens (split_string_by_space "set lamp 75".toList boot) =
      ("set lamp".toList, "75".toList, []) :=
  ⟨by decide, (tokenizer "set lamp 75".toList boot (by decide)).1⟩

set_option maxRecDepth 100000

/-- The capacity of `cmd_key` is not part of the tokenizer statement: a line
that is one word of 199 letters is shorter than `MAX`, its key is that word
followed by a space, 200 characters, one more than the 200-byte array holds
together with the terminator. -/
theorem key_capacity_edge :
    (List.replicate 199 'a').length < MAX ∧
    (key_of (List.replicate 199 'a')).length = MAX ∧
    ¬ fits (key_of (List.replicate 199 'a')) MAX := by
  refine ⟨by simp [MAX], by rfl, ?_⟩
  unfold fits
  have h : (key_of (List.replicate 199 'a')).length = MAX := by rfl
  rw [h]
  omega

set_option maxRecDepth 512

/-! ## Main loop -/

theorem set_control_control (s : State) : set_control (control s) s = s := rfl

theorem control_set_control (c : Control) (s : State) : control (set_control c s) = c := rfl

theorem function_set_time_control (e : Env) (c : Control) (s : State) :
    function_set_time e (set_control c s) = set_control c (function_set_time e s) := by
  rw [function_set_time_eq, function_set_time_eq]
  cases e.rtc_ok_after_set <;> rfl

theorem function_set_lamp_control (c : Control) (s : State) :
    function_set_lamp (set_control c s) = set_control c (function_set_lamp s) := by
  rw [function_set_lamp_eq, function_set_lamp_eq]
  rfl

theorem function_open_curtain_control (c : Control) (s : State) :
    function_open_curtain (set_control c s) = set_control c (function_open_curtain s) := by
  cases h : s.is_open
  · rw [function_open_curtain_closed s h, function_open_curtain_closed (set_control c s) h]
    rfl
  · rw [function_open_curtain_open s h, function_open_curtain_open (set_control c s) h]
    rfl

theorem function_close_curtain_control (c : Control) (s : State) :
    function_close_curtain (set_control c s) = set_control c (function_close_curtain s) := by
  cases h : s.is_open
  · rw [function_close_curtain_closed s h, function_close_curtain_closed (set_control c s) h]
    rfl
  · rw [function_close_curtain_open s h, function_close_curtain_open (set_control c s) h]
    rfl

theorem function_help_control (c : Control) (s : State) :
    function_help (set_control c s) = set_control c (function_help s) := rfl

theorem function_after_one_second_control (e : Env) (c : Control) (s : State) :
    function_after_one_second e (set_control c s) =
      set_control c (function_after_one_second e s) := by
  rw [function_after_one_second_eq, function_after_one_second_eq]
  cases e.rtc_ok_now <;> rfl

/-- An executor that commutes with every replacement of the control part leaves
the control part as it was. -/
theorem control_of_commuting (f : State → State)
    (hf : ∀ c s, f (set_control c s) = set_control c (f s)) (s : State) :
    control (f s) = control s := by
  have h := hf (control s) s
  rw [set_control_control] at h
  rw [h, control_set_control]

theorem run_if_control (b : Bool) (f : State → State)
    (hf : ∀ c s, f (set_control c s) = set_control c (f s)) (c : Control) (s : State) :
    run_if b f (set_control c s) = set_control c (run_if b f s) := by
  cases b
  · rfl
  · exact hf c s

theorem serve_set_time_stage (e : Env) (c : Control) (y : State) :
    serve_set_time e (set_control c y) =
      set_control { c with set_time := false } (run_if c.set_time (function_set_time e) y) := by
  unfold serve_set_time run_if
  show (if c.set_time = true then _ else _) = _
  cases h : c.set_time
  · have hc : c = { c with set_time := false } := by cases c; simp_all
    simp only [Bool.false_eq_true, if_false]
    exact congrArg (fun k => set_control k y) hc
  · simp only [if_true]
    rw [function_set_time_control]
    rfl

theorem serve_set_lamp_stage (c : Control) (y : State) :
    serve_set_lamp (set_control c y) =
      set_control { c with set_lamp := false } (run_if c.set_lamp function_set_lamp y) := by
  unfold serve_set_lamp run_if
  show (if c.set_lamp = true then _ else _) = _
  cases h : c.set_lamp
  · have hc : c = { c with set_lamp := false } := by cases c; simp_all
    simp only [Bool.false_eq_true, if_false]
    exact congrArg (fun k => set_control k y) hc
  · simp only [if_true]
    rw [function_set_lamp_control]
    rfl

theorem serve_open_curtain_stage (c : Control) (y : State) :
    serve_open_curtain (set_control c y) =
      set_control { c with open_curtain := false }
        (run_if c.open_curtain function_open_curtain y) := by
  unfold serve_open_curtain run_if
  show (if c.open_curtain = true then _ else _) = _
  cases h : c.open_curtain
  · have hc : c = { c with open_curtain := false } := by cases c; simp_all
    simp only [Bool.false_eq_true, if_false]
    exact congrArg (fun k => set_control k y) hc
  · simp only [if_true]
    rw [function_open_curtain_control]
    rfl

theorem serve_close_curtain_stage (c : Control) (y : State) :
    serve_close_curtain (set_control c y) =
      set_control { c with close_curtain := false }
        (run_if c.close_curtain function_close_curtain y) := by
  unfold serve_close_curtain run_if
  show (if c.close_curtain = true then _ else _) = _
  cases h : c.close_curtain
  · have hc : c = { c with close_curtain := false } := by cases c; simp_all
    simp only [Bool.false_eq_true, if_false]
    exact congrArg (fun k => set_control k y) hc
  · simp only [if_true]
    rw [function_close_curtain_control]
    rfl

theorem serve_help_stage (c : Control) (y : State) :
    serve_help (set_control c y) =
      set_control { c with help := false } (run_if c.help function_help y) := by
  unfold serve_help run_if
  show (if c.help = true then _ else _) = _
  cases h : c.help
  · have hc : c = { c with help := false } := by cases c; simp_all
    simp only [Bool.false_eq_true, if_false]
    exact congrArg (fun k => set_control k y) hc
  · simp only [if_true]
    rfl

theorem serve_after_one_second_stage (e : Env) (c : Control) (y : State) :
    serve_after_one_second e (set_control c y) =
      set_control { c with after_one_second := false }
        (run_if c.after_one_second (function_after_one_second e) y) := by
  unfold serve_after_one_second run_if
  show (if c.after_one_second = true then _ else _) = _
  cases h : c.after_one_second
  · have hc : c = { c with after_one_second := false } := by cases c; simp_all
    simp only [Bool.false_eq_true, if_false]
    exact congrArg (fun k => set_control k y) hc
  · simp only [if_true]
    rw [function_after_one_second_control]
    rfl

theorem control_run_pending (e : Env) (s : State) : control (run_pending e s) = control s := by
  have step : ∀ (b : Bool) (f : State → State),
      (∀ c x, f (set_control c x) = set_control c (f x)) →
      ∀ y, control (run_if b f y) = control y := by
    intro b f hf y
    exact control_of_commuting (run_if b f) (run_if_control b f hf) y
  unfold run_pending
  rw [step _ _ (function_after_one_second_control e), step _ _ function_help_control,
    step _ _ function_close_curtain_control, step _ _ function_open_curtain_control,
    step _ _ function_set_lamp_control, step _ _ (function_set_time_control e)]

/-- The first six lines of the loop body: the pending executors run in order,
then the six flags are clear. -/
theorem at_timeout_guard_eq (e : Env) (s : State) :
    at_timeout_guard e s = clear_flags (run_pending e s) := by
  have h0 : at_timeout_guard e s = at_timeout_guard e (set_control (control s) s) := rfl
  rw [h0]
  unfold at_timeout_guard
  rw [serve_set_time_stage, serve_set_lamp_stage, serve_open_curtain_stage,
    serve_close_curtain_stage, serve_help_stage, serve_after_one_second_stage]
  have hc := control_run_pending e s
  have h1 : clear_flags (run_pending e s) =
      set_control { control s with
        set_time := false, set_lamp := false, open_curtain := false, close_curtain := false,
        help := false, after_one_second := false } (run_pending e s) := by
    have h2 : clear_flags (run_pending e s) =
        set_control { control (run_pending e s) with
          set_time := false, set_lamp := false, open_curtain := false, close_curtain := false,
          help := false, after_one_second := false } (run_pending e s) := rfl
    exact h2.trans (congrArg (fun k : Control => set_control { k with
          set_time := false, set_lamp := false, open_curtain := false, close_curtain := false,
          help := false, after_one_second := false } (run_pending e s)) hc)
  refine Eq.trans ?_ h1.symm
  simp only [run_pending, control]

theorem control_fields (a b : State) (h : control a = control b) :
    a.after_one_minute = b.after_one_minute ∧ a.login = b.login ∧ a.counter = b.counter ∧
      a.pw_index = b.pw_index ∧ a.cmd_index = b.cmd_index := by
  simp only [control, Control.mk.injEq] at h
  exact ⟨h.2.2.2.2.2.2.1, h.2.2.2.2.2.2.2.1, h.2.2.2.2.2.2.2.2.1, h.2.2.2.2.2.2.2.2.2.1,
    h.2.2.2.2.2.2.2.2.2.2⟩

theorem run_steps_append (xs ys : List Step) (s : State) :
    run_steps (xs ++ ys) s = run_steps ys (run_steps xs s) := by
  induction xs generalizing s with
  | nil => rfl
  | cons x xs ih => exact ih (step x s)

theorem run_steps_idle_seconds (n : Nat) (s : State) :
    run_steps (idle_seconds n) s = run_ticks (List.replicate n quiet_env) s := by
  induction n generalizing s with
  | zero => rfl
  | succ n ih => exact ih (tick_then_loop quiet_env s)

theorem session_view_at_timeout_guard (e : Env) (s : State) :
    session_view (at_timeout_guard e s) = session_view s :=
  session_view_commands e s

/-- The state of `late_character_run` before the main loop polls: the 60th tick
has set `after_one_minute`, the character has reset the counter, and the session
is logged in. -/
theorem late_character_state_view :
    late_character_state.login = true ∧ late_character_state.counter = 0 ∧
      late_character_state.after_one_minute = true := by
  have h0 : session_view logged_in = (true, 0, false, 0) := by rfl
  have h59 := session_view_run_ticks (List.replicate 59 quiet_env) logged_in 0 0 h0
    (le_refl 0) (by simp)
  simp only [List.length_replicate] at h59
  have ht := session_view_TIMER1_OVF (run_ticks (List.replicate 59 quiet_env) logged_in)
  simp only [session_view, Prod.mk.injEq] at h59
  have hw : wrap16 ((run_ticks (List.replicate 59 quiet_env) logged_in).counter + 1) = 60 := by
    rw [h59.2.1]
    rfl
  rw [hw, h59.1] at ht
  simp only [session_view, Prod.mk.injEq, if_true] at ht
  have hs : late_character_state =
      (USART_RXC 'h' stack_x
        (TIMER1_OVF (run_ticks (List.replicate 59 quiet_env) logged_in))).1 := by
    unfold late_character_state late_character_run
    rw [run_steps_append, run_steps_idle_seconds]
    rfl
  have hrx := USART_RXC_session 'h' stack_x
    (TIMER1_OVF (run_ticks (List.replicate 59 quiet_env) logged_in)) ht.1
  rw [hs]
  exact ⟨hrx.1, hrx.2.1, hrx.2.2.trans ht.2.2.1⟩

/-- C17. Timeout guard, evaluated on a character that arrives late.  After a
login, 60 ticks pass without a character, the main loop polling after each of
the first 59; a character is received after the 60th tick and before the main
loop polls again.  The handler resets the counter to 0 but leaves
`after_one_minute` set, so the next pass of the main loop reaches the timeout
guard with `login = true` and `counter = 0`, executes
`function_session_timeout` and logs the session out. -/
theorem timeout_after_late_character :
    late_character_state.login = true ∧
    late_character_state.counter = 0 ∧
    late_character_state.after_one_minute = true ∧
    (at_timeout_guard quiet_env late_character_state).login = true ∧
    (at_timeout_guard quiet_env late_character_state).counter = 0 ∧
    (at_timeout_guard quiet_env late_character_state).after_one_minute = true ∧
    (main_loop quiet_env late_character_state).login = false ∧
    count_serial "\rSession timeout!" (main_loop quiet_env late_character_state).trace =
      count_serial "\rSession timeout!" late_character_state.trace + 1 := by
  obtain ⟨hl, hc, hm⟩ := late_character_state_view
  have hg := session_view_at_timeout_guard quiet_env late_character_state
  simp only [session_view, Prod.mk.injEq] at hg
  have hfire := session_view_serve_session_timeout_fire
    (at_timeout_guard quiet_env late_character_state) (hg.2.2.1.trans hm) (hg.1.trans hl)
  have hmain : main_loop quiet_env late_character_state =
      serve_session_timeout (at_timeout_guard quiet_env late_character_state) := rfl
  simp only [session_view, Prod.mk.injEq] at hfire
  refine ⟨hl, hc, hm, hg.1.trans hl, hg.2.1.trans hc, hg.2.2.1.trans hm, ?_, ?_⟩
  · rw [hmain]; exact hfire.1
  · rw [hmain, hfire.2.2.2, hg.2.2.2]

/-- What does hold of the timeout guard, in every state: the timeout is executed
only when `login` and `after_one_minute` are both set, and a character received
while logged in resets the counter to 0. -/
theorem timeout_guard_parts (s : State) (c : Char) (stack : Nat → Char) :
    (serve_session_timeout s ≠ s → s.login = true ∧ s.after_one_minute = true) ∧
    (s.login = true → (USART_RXC c stack s).1.counter = 0) := by
  constructor
  · intro h
    by_cases hg : (s.after_one_minute && s.login) = true
    · simp only [Bool.and_eq_true] at hg
      exact ⟨hg.2, hg.1⟩
    · exact absurd (serve_session_timeout_idle s (by simpa using hg)) h
  · intro h
    exact (USART_RXC_session c stack s h).2.1

/-- The late character of `late_character_run` resets the counter:
`timeout_guard_parts` at a concrete state. -/
theorem timeout_guard_parts_witness :
    logged_in.login = true ∧ (USART_RXC 'h' stack_x logged_in).1.counter = 0 :=
  ⟨by rfl, (timeout_guard_parts logged_in 'h' stack_x).2 (by rfl)⟩

/-! ## Command index at login -/

theorem TIMER1_OVF_eq (s : State) :
    TIMER1_OVF s =
      { s with
        counter := wrap16 (s.counter + 1)
        after_one_second := true
        after_one_minute :=
          if wrap16 (s.counter + 1) = 60 then true else s.after_one_minute } := by
  unfold TIMER1_OVF
  by_cases h : wrap16 (s.counter + 1) = 60
  · simp [h]
  · simp [h]

theorem main_loop_indices (e : Env) (s : State) :
    (main_loop e s).cmd_index = s.cmd_index ∧ (main_loop e s).pw_index = s.pw_index := by
  have hm : main_loop e s = serve_session_timeout (at_timeout_guard e s) := rfl
  have hc := control_fields _ _ (control_run_pending e s)
  have hg : (at_timeout_guard e s).cmd_index = s.cmd_index ∧
      (at_timeout_guard e s).pw_index = s.pw_index := by
    rw [at_timeout_guard_eq]
    exact ⟨hc.2.2.2.2, hc.2.2.2.1⟩
  have ht : ∀ x : State, (serve_session_timeout x).cmd_index = x.cmd_index ∧
      (serve_session_timeout x).pw_index = x.pw_index := by
    intro x
    unfold serve_session_timeout
    split <;> exact ⟨rfl, rfl⟩
  rw [hm]
  exact ⟨(ht _).1.trans hg.1, (ht _).2.trans hg.2⟩

theorem run_ticks_indices (es : List Env) (s : State) :
    (run_ticks es s).cmd_index = s.cmd_index ∧ (run_ticks es s).pw_index = s.pw_index := by
  induction es generalizing s with
  | nil => exact ⟨rfl, rfl⟩
  | cons e es ih =>
    have h1 := ih (tick_then_loop e s)
    have h2 := main_loop_indices e (TIMER1_OVF s)
    have h3 : (TIMER1_OVF s).cmd_index = s.cmd_index ∧ (TIMER1_OVF s).pw_index = s.pw_index := by
      rw [TIMER1_OVF_eq]
      exact ⟨rfl, rfl⟩
    exact ⟨h1.1.trans (h2.1.trans h3.1), h1.2.trans (h2.2.trans h3.2)⟩

theorem USART_RXC_logged_out_cmd_index (c : Char) (stack : Nat → Char) (s : State)
    (h : s.login = false) : (USART_RXC c stack s).1.cmd_index = s.cmd_index := by
  rw [USART_RXC_logged_out c stack s h]
  by_cases ht : c = '\r' ∨ c = NUL
  · rw [password_validation_done _ _ _ ht]
    split_ifs <;> rfl
  · rw [password_validation_more _ _ _ (fun hc => ht (Or.inl hc)) (fun hc => ht (Or.inr hc))]
    rfl

theorem feed_retained_logged_out_cmd_index (cs : List Char) (stack : Nat → Char) (s : State)
    (hout : s.login = false) (hterm : ∀ c ∈ cs, is_terminator c = false) :
    (feed_retained (cs ++ ['\r']) stack s).1.cmd_index = s.cmd_index := by
  induction cs generalizing stack s with
  | nil => exact USART_RXC_logged_out_cmd_index '\r' stack s hout
  | cons c cs ih =>
    have hc := is_terminator_false c (hterm c (by simp))
    have h1 := USART_RXC_logged_out_cmd_index c stack s hout
    have hl : (USART_RXC c stack s).1.login = false := by
      rw [USART_RXC_logged_out c stack s hout, password_validation_more _ _ _ hc.1 hc.2]
      exact hout
    have := ih (USART_RXC c stack s).2 (USART_RXC c stack s).1 hl
      (fun x hx => hterm x (by simp [hx]))
    exact this.trans h1

theorem c_str_from_getD (mem : Nat → Char) (a fuel j : Nat)
    (hj : j < (c_str_from mem a fuel).length) :
    (c_str_from mem a fuel).getD j NUL = mem (a + j) := by
  induction fuel generalizing a j with
  | zero => simp [c_str_from] at hj
  | succ n ih =>
    by_cases h0 : mem a = NUL
    · simp [c_str_from, h0] at hj
    · simp only [c_str_from, if_neg h0] at hj ⊢
      cases j with
      | zero => simp
      | succ k =>
        have hk : k < (c_str_from mem (a + 1) n).length := by
          simpa using hj
        have := ih (a + 1) k hk
        simp only [List.getD_cons_succ]
        rw [this]
        congr 1
        omega

theorem dispatch_help_unchanged (line : List Char) (s : State)
    (h : line ≠ "help".toList) : (dispatch line s).help = s.help := by
  unfold dispatch
  split_ifs <;> rfl

/-- With the command index at 3 when the line `help` and its carriage return
arrive, the completed line is read from offset 0 and is not `help`, whatever the
stack region holds below the index: the help flag is not set and the index
returns to 0. -/
theorem help_after_stale_letters (stack : Nat → Char) (s : State)
    (hin : s.login = true) (hidx : s.cmd_index = 3) :
    (feed_retained "help\r".toList stack s).1.help = s.help ∧
    (feed_retained "help\r".toList stack s).1.cmd_index = 0 := by
  have hacc := feed_retained_command_chars "help".toList [stack 0, stack 1, stack 2] stack s hin
    (by simpa using hidx)
    (by
      intro j hj
      simp only [List.length_cons, List.length_nil] at hj
      interval_cases j <;> rfl)
    (by simp) (by decide)
  obtain ⟨hl, hi, hh, hp⟩ := hacc
  have h3 : (feed_retained "help".toList stack s).2 3 = 'h' := by
    have := hh 3 (by simp)
    simpa using this
  have hsplit : feed_retained "help\r".toList stack s =
      USART_RXC '\r' (feed_retained "help".toList stack s).2
        (feed_retained "help".toList stack s).1 := by
    have e : "help\r".toList = "help".toList ++ ['\r'] := by decide
    rw [e, feed_retained_append]
    rfl
  have hu : USART_RXC '\r' (feed_retained "help".toList stack s).2
      (feed_retained "help".toList stack s).1 =
      get_user_cmd '\r' (feed_retained "help".toList stack s).2
        { emit (Event.udr '\r') (feed_retained "help".toList stack s).1 with counter := 0 } := by
    unfold USART_RXC
    exact if_pos hl
  rw [hsplit, hu, get_user_cmd_done _ _ _ (Or.inl rfl)]
  have hne : c_str_from (feed_retained "help".toList stack s).2 0
      ({ emit (Event.udr '\r') (feed_retained "help".toList stack s).1 with
          counter := 0 } : State).cmd_index ≠ "help".toList := by
    intro hc
    have hlen : 3 < (c_str_from (feed_retained "help".toList stack s).2 0
      ({ emit (Event.udr '\r') (feed_retained "help".toList stack s).1 with
          counter := 0 } : State).cmd_index).length := by
      rw [hc]; decide
    have := c_str_from_getD _ 0 _ 3 hlen
    rw [hc, Nat.zero_add, h3] at this
    exact absurd this (by decide)
  refine ⟨?_, rfl⟩
  show (dispatch _ _).help = s.help
  rw [dispatch_help_unchanged _ _ hne]
  have hsp := (split_string_by_space_frame
    (c_str_from (feed_retained "help".toList stack s).2 0
      ({ emit (Event.udr '\r') (feed_retained "help".toList stack s).1 with
          counter := 0 } : State).cmd_index)
    ({ emit (Event.udr '\r') (feed_retained "help".toList stack s).1 with
          counter := 0 } : State)).1
  simp only [pending, Prod.mk.injEq] at hsp hp
  rw [hsp.2.2.2.2]
  exact hp.2.2.2.2

/-- The state of the failing run just before the second login: the session has
timed out and the command index still counts the three letters typed before. -/
theorem timed_out_state_view :
    (run_ticks (List.replicate 60 quiet_env)
      (feed_retained "abc".toList (feed_retained "1234\r".toList stack_x boot).2
        (feed_retained "1234\r".toList stack_x boot).1).1).login = false ∧
    (run_ticks (List.replicate 60 quiet_env)
      (feed_retained "abc".toList (feed_retained "1234\r".toList stack_x boot).2
        (feed_retained "1234\r".toList stack_x boot).1).1).pw_index = 0 ∧
    (run_ticks (List.replicate 60 quiet_env)
      (feed_retained "abc".toList (feed_retained "1234\r".toList stack_x boot).2
        (feed_retained "1234\r".toList stack_x boot).1).1).cmd_index = 3 := by
  generalize hs2 : (feed_retained "abc".toList (feed_retained "1234\r".toList stack_x boot).2
        (feed_retained "1234\r".toList stack_x boot).1).1 = s2
  have hv : session_view s2 = (true, 0, false, 0) := by rw [← hs2]; rfl
  have hi : s2.cmd_index = 3 ∧ s2.pw_index = 0 := by rw [← hs2]; exact ⟨by rfl, by rfl⟩
  have h59 := session_view_run_ticks (List.replicate 59 quiet_env) s2 0 0 hv (le_refl 0)
    (by simp)
  simp only [List.length_replicate] at h59
  have e60 : List.replicate 60 quiet_env = List.replicate 59 quiet_env ++ [quiet_env] :=
    List.replicate_succ' 59 quiet_env
  have hfire := session_view_tick_fire quiet_env (run_ticks (List.replicate 59 quiet_env) s2) 0
    (by simpa using h59)
  have hidx := run_ticks_indices (List.replicate 60 quiet_env) s2
  rw [e60, run_ticks_snoc] at hidx ⊢
  simp only [session_view, Prod.mk.injEq] at hfire
  exact ⟨hfire.1, hidx.2.trans hi.2, hidx.1.trans hi.1⟩

/-- C19. Command index at login, evaluated on a run with a timeout.  From
power-on: login, the letters `abc` without terminator, sixty idle ticks (the
session times out), login again, the stack region retained throughout.  At the
second transition to logged in the line index of `get_user_cmd` is 3, not 0, and
the line `help` received next is not dispatched as `help`: the help flag stays
as it was, whatever the stack region holds. -/
theorem command_index_after_relogin :
    relogin_state.login = true ∧
    relogin_state.cmd_index = 3 ∧
    (∀ stack : Nat → Char,
      (feed_retained "help\r".toList stack relogin_state).1.help = relogin_state.help) := by
  obtain ⟨hl, hp, hc⟩ := timed_out_state_view
  have hlogin : relogin_state.login = true := by
    unfold relogin_state
    exact ((password_check_retained "1234".toList _ _ hl hp (by decide) (by decide)).2.1 rfl).1
  have hidx : relogin_state.cmd_index = 3 := by
    unfold relogin_state
    exact (feed_retained_logged_out_cmd_index "1234".toList _ _ hl (by decide)).trans hc
  exact ⟨hlogin, hidx, fun stack => (help_after_stale_letters stack relogin_state hlogin hidx).1⟩

/-- The help line at a command index of 3: `help_after_stale_letters` at a
concrete state. -/
theorem help_after_stale_letters_witness :
    (feed_retained "help\r".toList stack_x { logged_in with cmd_index := 3 }).1.help = false :=
  (help_after_stale_letters stack_x { logged_in with cmd_index := 3 } (by rfl) rfl).1

/-! ## Clock text and its buffers -/

/-- For every valid set-time input, with the clock snapshot holding the fields
that were set (the year counted from 2000), the time text has 8 characters and
fits the 10-byte array `time_arr`, and the date text has 10 characters: with its
terminator it needs 11 bytes and does not fit the 10-byte array `date_arr`. -/
theorem clock_text_lengths (h mi se mo dd yy : Nat) (t : DateTime_t)
    (hh : h ≤ 23) (hmi : mi ≤ 59) (hse : se ≤ 59)
    (hmo : 1 ≤ mo ∧ mo ≤ 12) (hdd : 1 ≤ dd ∧ dd ≤ 31) (hyy : yy ≤ 99)
    (ht : t = ⟨se, mi, h, Sunday, dd, mo, 2000 + yy⟩) :
    (time_text t).length = 8 ∧ fits (time_text t) 10 ∧
    (date_text t).length = 10 ∧ ¬ fits (date_text t) 10 := by
  have h8 : (time_text t).length = 8 := by
    rw [ht]
    exact time_token_length h mi se (by omega) (by omega) (by omega)
  have h10 : (date_text t).length = 10 :=
    date_text_length mo dd yy (by omega) (by omega) hyy t (by rw [ht]) (by rw [ht]) (by rw [ht])
  refine ⟨h8, ?_, h10, ?_⟩
  · unfold fits
    omega
  · unfold fits
    omega

/-- The text lengths for 09:30:55 on 12 May 2025: `clock_text_lengths` at a
concrete input. -/
theorem clock_text_lengths_witness :
    (date_text ⟨55, 30, 9, Sunday, 12, 5, 2025⟩).length = 10 ∧
    ¬ fits (date_text ⟨55, 30, 9, Sunday, 12, 5, 2025⟩) 10 :=
  ⟨(clock_text_lengths 9 30 55 5 12 25 ⟨55, 30, 9, Sunday, 12, 5, 2025⟩ (by decide) (by decide)
      (by decide) (by decide) (by decide) (by decide) rfl).2.2.1,
    (clock_text_lengths 9 30 55 5 12 25 ⟨55, 30, 9, Sunday, 12, 5, 2025⟩ (by decide) (by decide)
      (by decide) (by decide) (by decide) (by decide) rfl).2.2.2⟩

/-- C20. Rendered clock text and its buffer, evaluated on the command
`set time 09:30:55 05/12/25` with a clock chip that answers what was set.  The
time text `09:30:55` has 8 characters and fits the 10-byte array.  The date text
is formatted over the year 2025, the month and the day: `2025/05/12` has 10
characters, so `sprintf` stores 11 bytes in the 10-byte array `date_arr`, both in
`function_set_time` and in `function_after_one_second`. -/
theorem date_text_exceeds_buffer :
    (function_set_time quiet_env
      { boot with cmd_first_value := "09:30:55".toList,
                  cmd_second_value := "05/12/25".toList }).t =
      ⟨55, 30, 9, Sunday, 12, 5, 2025⟩ ∧
    new_events boot (function_set_time quiet_env
      { boot with cmd_first_value := "09:30:55".toList,
                  cmd_second_value := "05/12/25".toList }) =
      [Event.rtc_set ⟨55, 30, 9, Sunday, 12, 5, 2025⟩, Event.rtc_get,
        Event.lq_setCursor 0 0, Event.lq_print "09:30:55".toList,
        Event.lq_setCursor 1 0, Event.lq_print "2025/05/12".toList,
        Event.serial_send_string "\rDone.\r"] ∧
    time_text ⟨55, 30, 9, Sunday, 12, 5, 2025⟩ = "09:30:55".toList ∧
    fits (time_text ⟨55, 30, 9, Sunday, 12, 5, 2025⟩) 10 ∧
    date_text ⟨55, 30, 9, Sunday, 12, 5, 2025⟩ = "2025/05/12".toList ∧
    (date_text ⟨55, 30, 9, Sunday, 12, 5, 2025⟩).length = 10 ∧
    ¬ fits (date_text ⟨55, 30, 9, Sunday, 12, 5, 2025⟩) 10 := by
  refine ⟨by rfl, ?_, by rfl, ?_, by rfl, by rfl, ?_⟩
  · unfold new_events
    decide
  · unfold fits
    decide
  · unfold fits
    decide

/-! ## The dispatcher on received lines -/

/-- C4. Dispatcher, evaluated on lines received where the stack region of `rec`
is not retained.  After a login, the thirteen handler calls for `open curtain`
and carriage return each enter with `rec` holding the letter x everywhere: the
completed line is read as twelve letters x, `open_curtain` is not set and the
output ends with `Error!`.  Conversely, when the call that receives the
carriage return of `bananas` finds the bytes of `help` in the stack region, the
help flag is set and no `Error!` is emitted. -/
theorem dispatcher_stack_not_retained :
    logged_in.login = true ∧ logged_in.cmd_index = 0 ∧
    pending logged_in = (false, false, false, false, false) ∧
    pending (feed_frames ("open curtain\r".toList.map (fun c => (c, stack_x))) logged_in) =
      (false, false, false, false, false) ∧
    (feed_frames ("open curtain\r".toList.map (fun c => (c, stack_x))) logged_in).trace.getLast?
      = some (Event.serial_send_string "\rError!\r") ∧
    pending (feed_frames ("bananas".toList.map (fun c => (c, stack_x)) ++
        [('\r', fun j => "help".toList.getD j NUL)]) logged_in) =
      (false, false, false, false, true) ∧
    count_serial "\rError!\r" (feed_frames ("bananas".toList.map (fun c => (c, stack_x)) ++
        [('\r', fun j => "help".toList.getD j NUL)]) logged_in).trace = 0 := by
  refine ⟨by rfl, by rfl, by rfl, by rfl, by rfl, by rfl, by rfl⟩

theorem feed_retained_command_trace (cs : List Char) (stack : Nat → Char) (s : State)
    (hin : s.login = true) (hterm : ∀ c ∈ cs, is_terminator c = false) :
    (feed_retained cs stack s).1.trace = s.trace ++ cs.map Event.udr := by
  induction cs generalizing stack s with
  | nil => simp [feed_retained]
  | cons c cs ih =>
    have hc := is_terminator_false c (hterm c (by simp))
    have hstep : USART_RXC c stack s =
        ({ s with trace := s.trace ++ [Event.udr c], counter := 0,
                  cmd_index := (s.cmd_index + 1) % 256 }, poke stack s.cmd_index c) := by
      have hu : USART_RXC c stack s =
          get_user_cmd c stack { emit (Event.udr c) s with counter := 0 } := by
        unfold USART_RXC
        exact if_pos hin
      rw [hu, get_user_cmd_more _ _ _ hc.1 hc.2]
      rfl
    have := ih (poke stack s.cmd_index c)
      { s with trace := s.trace ++ [Event.udr c], counter := 0,
               cmd_index := (s.cmd_index + 1) % 256 }
      hin (fun x hx => hterm x (by simp [hx]))
    simp only [feed_retained, hstep]
    simpa using this

/-- The dispatcher on received lines when the stack region of `rec` is retained
between the handler calls and the line index is 0 at the start of the line.
For every line `L` of fewer than `MAX` characters without a terminator, received
while logged in and followed by a carriage return: if the key of `L` is
`set time`, `set lamp`, `open curtain` or `close curtain`, or `L` is `help`, the
corresponding flag is set, the other four are as before and the output consists
of the echoed characters only; for every other `L` the five flags are as before
and the echo is followed by `Error!`. -/
theorem dispatcher_retained (L : List Char) (stack : Nat → Char) (s : State)
    (hin : s.login = true) (hidx : s.cmd_index = 0) (hlen : L.length < MAX)
    (hterm : ∀ c ∈ L, is_terminator c = false) :
    (key_of L = "set time".toList →
      pending (feed_retained (L ++ ['\r']) stack s).1 =
        (true, s.set_lamp, s.open_curtain, s.close_curtain, s.help) ∧
      (feed_retained (L ++ ['\r']) stack s).1.trace =
        s.trace ++ (L ++ ['\r']).map Event.udr) ∧
    (key_of L = "set lamp".toList →
      pending (feed_retained (L ++ ['\r']) stack s).1 =
        (s.set_time, true, s.open_curtain, s.close_curtain, s.help) ∧
      (feed_retained (L ++ ['\r']) stack s).1.trace =
        s.trace ++ (L ++ ['\r']).map Event.udr) ∧
    (key_of L = "open curtain".toList →
      pending (feed_retained (L ++ ['\r']) stack s).1 =
        (s.set_time, s.set_lamp, true, s.close_curtain, s.help) ∧
      (feed_retained (L ++ ['\r']) stack s).1.trace =
        s.trace ++ (L ++ ['\r']).map Event.udr) ∧
    (key_of L = "close curtain".toList →
      pending (feed_retained (L ++ ['\r']) stack s).1 =
        (s.set_time, s.set_lamp, s.open_curtain, true, s.help) ∧
      (feed_retained (L ++ ['\r']) stack s).1.trace =
        s.trace ++ (L ++ ['\r']).map Event.udr) ∧
    (L = "help".toList →
      pending (feed_retained (L ++ ['\r']) stack s).1 =
        (s.set_time, s.set_lamp, s.open_curtain, s.close_curtain, true) ∧
      (feed_retained (L ++ ['\r']) stack s).1.trace =
        s.trace ++ (L ++ ['\r']).map Event.udr) ∧
    (key_of L ≠ "set time".toList → key_of L ≠ "set lamp".toList →
      key_of L ≠ "open curtain".toList → key_of L ≠ "close curtain".toList →
      L ≠ "help".toList →
      pending (feed_retained (L ++ ['\r']) stack s).1 = pending s ∧
      (feed_retained (L ++ ['\r']) stack s).1.trace =
        s.trace ++ (L ++ ['\r']).map Event.udr ++
          [Event.serial_send_string "\rError!\r"]) := by
  obtain ⟨hline, hl, hp⟩ := command_line_retained L stack s hin hidx hlen hterm
  have htr := feed_retained_command_trace L stack s hin hterm
  have hlast : feed_retained (L ++ ['\r']) stack s =
      get_user_cmd '\r' (feed_retained L stack s).2
        { emit (Event.udr '\r') (feed_retained L stack s).1 with counter := 0 } := by
    rw [feed_retained_append]
    show USART_RXC '\r' _ _ = _
    unfold USART_RXC
    exact if_pos hl
  have htr2 : ({ emit (Event.udr '\r') (feed_retained L stack s).1 with
      counter := 0 } : State).trace = s.trace ++ (L ++ ['\r']).map Event.udr := by
    show (feed_retained L stack s).1.trace ++ [Event.udr '\r'] = _
    rw [htr]
    simp
  rw [hlast]
  generalize (feed_retained L stack s).2 = K at hline ⊢
  have hline2 : c_str_from K 0
      ({ emit (Event.udr '\r') (feed_retained L stack s).1 with counter := 0 } : State).cmd_index
        = L := hline
  have hp2 : pending ({ emit (Event.udr '\r') (feed_retained L stack s).1 with
      counter := 0 } : State) = pending s := hp
  generalize ({ emit (Event.udr '\r') (feed_retained L stack s).1 with
      counter := 0 } : State) = s0 at hline2 hp2 htr2 ⊢
  have hd := dispatcher K s0
  rw [hline2, htr2] at hd
  simp only [pending, Prod.mk.injEq] at hp2
  obtain ⟨p1, p2, p3, p4, p5⟩ := hp2
  simp only [pending] at hd ⊢
  rw [p1, p2, p3, p4, p5] at hd
  exact hd

/-- The line `open curtain` received after a login with retained storage sets
`open_curtain` only: `dispatcher_retained` at a concrete input. -/
theorem dispatcher_retained_witness :
    pending (feed_retained ("open curtain".toList ++ ['\r']) stack_x logged_in).1 =
      (false, false, true, false, false) :=
  ((dispatcher_retained "open curtain".toList stack_x logged_in (by rfl) (by rfl) (by decide)
    (by decide)).2.2.1 (by decide)).1

end SmartRoom
